import Mathlib

/-!
Verification development for the crawl-and-extract pipeline
(`bayside_scraper.py`, `rpemx_scraper.py`, `api.py`).

The Python dictionaries produced by the extractors are embedded as
association lists (`Rec`) over a small dynamic value type (`Val`);
the two `save_to_database` stores are embedded as functions over lists
of rows; the two `main` crawl loops are embedded as fuelled recursive
functions over explicit state, parameterised by a site model (page
contents, next-page links, per-URL scrape outcomes).
-/

namespace Spec2Proof

/-- Dynamic value stored in a scraped record, mirroring the Python values
that the scrapers put into their `data` dicts: strings, booleans
(feature flags), lists of strings (images, captions, features),
`None` (`null`), a decimal parsed from a string (`float(s)`), and a
plain number (the literal `0` used when a price is missing). -/
inductive Val where
  | s (v : String)
  | b (v : Bool)
  | list (v : List String)
  | null
  | dec (raw : String)
  | n (v : Nat)
deriving DecidableEq, Inhabited

/-- A scraped record: a Python dict as an ordered association list. -/
abbrev Rec := List (String × Val)

/-- `data.get(k)` / `data[k]` read access: first binding of the key. -/
def Rec.get : Rec → String → Option Val
  | [], _ => none
  | (k, v) :: t, q => if q = k then some v else Rec.get t q

/-- `data[k] = v` dict assignment: replace an existing binding in place,
or append a fresh one (Python dicts keep the original insertion slot). -/
def Rec.set : Rec → String → Val → Rec
  | [], k, v => [(k, v)]
  | (k', v') :: t, k, v => if k' = k then (k', v) :: t else (k', v') :: Rec.set t k v

/-- `data.get(k, [])` with a list default. -/
def Rec.getListD (r : Rec) (k : String) : List String :=
  match r.get k with
  | some (Val.list l) => l
  | _ => []

/-- `data.get(k, '')` with a string default. -/
def Rec.getStrD (r : Rec) (k : String) : Val :=
  match r.get k with
  | some v => v
  | none => Val.s ""

/-! ### String helpers shared by the two extractors

These transcribe the small pieces of Python string handling the
scrapers use: `x.strip()`, `x.lower()`, substring tests (`a in b`),
`str.replace`, whitespace `split()`, and the first-run parts of the
`re.search` patterns. -/

/-- Does `n` occur at the head of `hay`? -/
def headMatches : List Char → List Char → Bool
  | [], _ => true
  | _ :: _, [] => false
  | a :: as, b :: bs => a = b && headMatches as bs

/-- Does `n` occur anywhere in `hay`? -/
def subListB (n : List Char) : List Char → Bool
  | [] => headMatches n []
  | c :: t => headMatches n (c :: t) || subListB n t

/-- Python `needle in s` substring test. -/
def strContains (s needle : String) : Bool :=
  subListB needle.data s.data

/-- Python `s.startswith(p)`. -/
def strStarts (s p : String) : Bool :=
  headMatches p.data s.data

/-- When `n` occurs at the head of the list, the remainder after it. -/
def stripMatch : List Char → List Char → Option (List Char)
  | [], t => some t
  | _ :: _, [] => none
  | a :: as, b :: bs => if a = b then stripMatch as bs else none

/-- Fuelled core of `removeAllChars` (the fuel only bounds the length
of the input, keeping the recursion structural). -/
def removeAllCharsF (n : List Char) : Nat → List Char → List Char
  | 0, l => l
  | _ + 1, [] => []
  | fuel + 1, c :: t =>
    match stripMatch n (c :: t) with
    | some rest => removeAllCharsF n fuel rest
    | none => c :: removeAllCharsF n fuel t

/-- Remove every (left-to-right, non-overlapping) occurrence of `n`. -/
def removeAllChars (n l : List Char) : List Char :=
  removeAllCharsF n l.length l

/-- Python `s.replace(needle, '')` (all occurrences removed). -/
def strRemoveAll (s needle : String) : String :=
  if needle = "" then s else String.mk (removeAllChars needle.data s.data)

/-- Fuelled core of `splitOnStr`. -/
def splitOnCharsF (n : List Char) : Nat → List Char → List Char → List (List Char)
  | 0, cur, l => [cur.reverse ++ l]
  | _ + 1, cur, [] => [cur.reverse]
  | fuel + 1, cur, c :: t =>
    match stripMatch n (c :: t) with
    | some rest => cur.reverse :: splitOnCharsF n fuel [] rest
    | none => splitOnCharsF n fuel (c :: cur) t

/-- Python `s.split(sep)` for a non-empty separator. -/
def splitOnStr (s sep : String) : List String :=
  if sep = "" then [s]
  else (splitOnCharsF sep.data (s.data.length + 1) [] s.data).map String.mk

/-- Python `sep.join(parts)`. -/
def joinWith (sep : String) : List String → String
  | [] => ""
  | [x] => x
  | x :: y :: t => x ++ sep ++ joinWith sep (y :: t)

/-- Python `s.strip()`. -/
def strTrim (s : String) : String :=
  String.mk (((s.data.dropWhile Char.isWhitespace).reverse.dropWhile
    Char.isWhitespace).reverse)

/-- Python `s.lower()` (ASCII, which is all the scrapers compare). -/
def strToLower (s : String) : String :=
  String.mk (s.data.map Char.toLower)

/-- Words of a string, accumulating the current word in reverse. -/
def wordsAux : List Char → List Char → List String
  | [], acc => if acc.isEmpty then [] else [String.mk acc.reverse]
  | c :: t, acc =>
    if c.isWhitespace then
      if acc.isEmpty then wordsAux t [] else String.mk acc.reverse :: wordsAux t []
    else wordsAux t (c :: acc)

/-- Python `s.split()`: split on whitespace, dropping empty pieces. -/
def splitWs (s : String) : List String :=
  wordsAux s.data []

/-- Python `s.rstrip(':')`. -/
def rstripColon (s : String) : String :=
  String.mk (s.data.reverse.dropWhile (fun c => c = ':')).reverse

/-- First maximal run of characters satisfying `p` anywhere in `l`
(the matched text of `re.search` for a `[...]+` character class). -/
def firstRunAux (p : Char → Bool) : List Char → Option (List Char)
  | [] => none
  | c :: t => if p c then some (c :: t.takeWhile p) else firstRunAux p t

/-- `re.search(r'[class]+', s)`: the first maximal run, as a string. -/
def firstRun (p : Char → Bool) (s : String) : Option String :=
  (firstRunAux p s.data).map String.mk

/-- Group 1 of `re.search(r'[\$\€]?\s*([\d,]+(?:\.\d{2})?)\s*([$€])?', s)`
(used for prices by both scrapers): the first maximal run of digits and
commas, extended by a decimal point and exactly two digits when they
immediately follow the run.  The optional currency-sign/space material
around the group never changes whether or where the group matches. -/
def priceScan : List Char → Option (List Char)
  | [] => none
  | c :: t =>
    if c.isDigit || c = ',' then
      let run := c :: t.takeWhile (fun d => d.isDigit || d = ',')
      some (match t.dropWhile (fun d => d.isDigit || d = ',') with
            | '.' :: d1 :: d2 :: _ =>
              if d1.isDigit && d2.isDigit then run ++ ['.', d1, d2] else run
            | _ => run)
    else priceScan t

/-- The matched text of `re.search(r'\d+\.?\d*', s)` (rpemx bathrooms):
a digit run, an optional decimal point, and any following digits. -/
def bathScan : List Char → Option (List Char)
  | [] => none
  | c :: t =>
    if c.isDigit then
      let ds := c :: t.takeWhile Char.isDigit
      some (match t.dropWhile Char.isDigit with
            | '.' :: r2 => ds ++ '.' :: r2.takeWhile Char.isDigit
            | _ => ds)
    else bathScan t

/-- Group 1 of `re.search(r'(\d+(?:,\d+)?)\s*m', s)` (rpemx size):
digits, optionally a comma and more digits, that are followed by
optional whitespace and a literal `m`.  The greedy comma alternative is
tried first; on failure the scan advances one position, as the regex
engine does. -/
def sizeScan : List Char → Option (List Char)
  | [] => none
  | c :: t =>
    if c.isDigit then
      let run1 := c :: t.takeWhile Char.isDigit
      let rest1 := t.dropWhile Char.isDigit
      let noComma : Option (List Char) :=
        if (rest1.dropWhile Char.isWhitespace).headD 'x' = 'm' then some run1 else none
      match rest1 with
      | ',' :: r2 =>
        if (r2.headD 'x').isDigit
            ∧ ((r2.dropWhile Char.isDigit).dropWhile Char.isWhitespace).headD 'x' = 'm' then
          some (run1 ++ ',' :: r2.takeWhile Char.isDigit)
        else
          match noComma with
          | some g => some g
          | none => sizeScan t
      | _ =>
        match noComma with
        | some g => some g
        | none => sizeScan t
    else sizeScan t

/-- The characters after the first occurrence of `n` in the list. -/
def afterNeedle (n : List Char) : List Char → Option (List Char)
  | [] => if n.isEmpty then some [] else none
  | c :: t => if headMatches n (c :: t) then some ((c :: t).drop n.length) else afterNeedle n t

/-- Is the character one of the quote characters of the
`url\(["\']?(.*?)["\']?\)` patterns? -/
def isQuoteChar (c : Char) : Bool :=
  c = '"' ∨ c = Char.ofNat 39

/-- Group 1 of `re.search(r'url\(["\']?(.*?)["\']?\)', style)` (used for
`background-image` URLs and the bayside agent photo): the text after
`url(` up to the first `)`, with one surrounding quote stripped from
either end; `none` when `url(` or the closing `)` is missing. -/
def styleUrlGroup (style : String) : Option (String) :=
  match afterNeedle "url(".data style.data with
  | none => none
  | some l =>
    let l1 := match l with
      | c :: t => if isQuoteChar c then t else l
      | [] => l
    if (l1.takeWhile (fun c => c ≠ ')')).length = l1.length then
      none
    else
      let content := l1.takeWhile (fun c => c ≠ ')')
      some (String.mk (match content.reverse with
            | q :: rest => if isQuoteChar q then rest.reverse else content
            | [] => content))

/-- `None`-or-string attribute lookup stored straight into a dict slot
(`data[k] = elem.get(attr)`). -/
def optValS : Option String → Val
  | some v => Val.s v
  | none => Val.null

/-- Python `list(dict.fromkeys(l))`: first-seen de-duplication by
insertion into a dict. -/
def dictFromKeys (l : List String) : List String :=
  l.foldl (fun acc u => if u ∈ acc then acc else acc ++ [u]) []

/-! ## rpemx extractor (`rpemx_scraper.py`, `scrape_listing`)

The document model records, for each element the extractor queries,
whether the element is present and the text/attributes the code reads
from it.  Texts are stored raw; the `.strip()`/`.lower()` calls of the
source are applied inside the embedded extractor. -/

/-- One `.item` div of the `#owl-demo` carousel: its `data-lzl-bg`
attribute and its `style` attribute. -/
structure OwlItem where
  lzlBg : Option String
  style : Option String
deriving DecidableEq, Inhabited

/-- One `.listing_detail` of `#accordion_prop_features`: its text and
whether it contains an `h4` (such entries are filtered out). -/
structure RFeature where
  text : String
  hasH4 : Bool
deriving DecidableEq, Inhabited

/-- The parts of a listing page that `rpemx_scraper.scrape_listing`
inspects. -/
structure RDoc where
  /-- `h1.entry-title.entry-prop` text. -/
  titleText : Option String
  /-- `.price_area` text. -/
  priceAreaText : Option String
  /-- texts of the `a` links under `.property_categs`, when present. -/
  locationLinks : Option (List String)
  /-- texts of `#accordion_prop_details .listing_detail`, when present. -/
  detailTexts : Option (List String)
  /-- `.item` divs of `#owl-demo`, when present. -/
  owlItems : Option (List OwlItem)
  /-- `#googleMap_shortcode`: its `data-cur_lat` and `data-cur_long`. -/
  mapDiv : Option (Option String × Option String)
  /-- `.wpestate_property_description` text after removing its `h4`. -/
  descText : Option String
  /-- `#accordion_prop_features` entries after removing its `h4`. -/
  featureItems : Option (List RFeature)
  /-- `.agent_details h3 a` text. -/
  agentNameText : Option String
  /-- `.agent_phone_class a` text. -/
  agentPhoneText : Option String
  /-- `.agent_email_class a` text. -/
  agentEmailText : Option String
deriving DecidableEq, Inhabited

namespace Rpemx

/-- The image URL taken from one carousel item: `data-lzl-bg` when
present and non-empty (Python truthiness), else the `background-image`
URL from the `style` attribute. -/
def itemRawUrl (it : OwlItem) : Option String :=
  match it.lzlBg with
  | some u => if u = "" then (it.style.bind styleUrlGroup) else some u
  | none => it.style.bind styleUrlGroup

/-- The image-collection loop over the carousel items: append a
candidate URL when it is truthy, not yet collected, and not a
`data:image` URI. -/
def owlFold : List OwlItem → List String → List String
  | [], acc => acc
  | it :: t, acc =>
    let acc' := match itemRawUrl it with
      | some u =>
        if u ≠ "" ∧ u ∉ acc ∧ strStarts u "data:image" = false then acc ++ [u] else acc
      | none => acc
    owlFold t acc'

/-- `all_images` as computed by the rpemx extractor (the collection
loop followed by `list(dict.fromkeys(...))`); `[]` when the carousel is
absent or yields nothing. -/
def all_images (doc : RDoc) : List String :=
  match doc.owlItems with
  | none => []
  | some items => dictFromKeys (owlFold items [])

/-- One iteration of the property-details loop on the (stripped)
detail text.  `none` models the `IndexError` raised by
`text.split(':')[1]` when a detail mentions `Property Id` but contains
no colon. -/
def detailStep (text : String) (r : Rec) : Option Rec :=
  if strContains text "Property Id" then
    match (splitOnStr text ":").get? 1 with
    | some p => some (r.set "property_id" (Val.s (strTrim p)))
    | none => none
  else if strContains text "Bedrooms" then
    some (r.set "bedrooms" (Val.s ((firstRun Char.isDigit text).getD "")))
  else if strContains text "Bathrooms" then
    some (r.set "bathrooms" (Val.s (((bathScan text.data).map String.mk).getD "")))
  else if strContains text "Size" then
    match sizeScan text.data with
    | some g => some (r.set "size_m2" (Val.s (strRemoveAll (String.mk g) ",")))
    | none => some r
  else some r

/-- The property-details loop. -/
def detailsFold : List String → Rec → Option Rec
  | [], r => some r
  | t :: rest, r =>
    match detailStep (strTrim t) r with
    | some r2 => detailsFold rest r2
    | none => none

/-- The record fields written before the details loop: `url`,
`scrape_date`, `title`, price/currency, city/area. -/
def baseRec (url now : String) (doc : RDoc) : Rec :=
  let r : Rec := [("url", Val.s url), ("scrape_date", Val.s now)]
  let r := r.set "title" (Val.s ((doc.titleText.map strTrim).getD ""))
  let r := match doc.priceAreaText with
    | some pt =>
      let ptext := strTrim pt
      match priceScan ptext.data with
      | some g =>
        (r.set "price" (Val.s (strRemoveAll (String.mk g) ","))).set "currency"
          (Val.s (if strContains ptext "MXN" then "MXN" else "USD"))
      | none => r
    | none => r
  match doc.locationLinks with
  | some (c :: a :: _) => (r.set "city" (Val.s (strTrim c))).set "area" (Val.s (strTrim a))
  | _ => r

/-- The carousel block: when at least one image was collected, set
`main_image` to the first one and store `all_images` and (empty)
`image_captions`; otherwise touch nothing. -/
def owlBlock (doc : RDoc) (r : Rec) : Rec :=
  match doc.owlItems with
  | none => r
  | some items =>
    match dictFromKeys (owlFold items []) with
    | [] => r
    | h :: tl =>
      ((r.set "main_image" (Val.s h)).set "all_images" (Val.list (h :: tl))).set
        "image_captions" (Val.list [])

/-- The fields written after the carousel block: coordinates,
description, features, agent contact data. -/
def tailBlock (doc : RDoc) (r : Rec) : Rec :=
  let r := match doc.mapDiv with
    | some (la, lo) => (r.set "latitude" (optValS la)).set "longitude" (optValS lo)
    | none => r
  let r := r.set "description" (Val.s (doc.descText.getD ""))
  let r := match doc.featureItems with
    | none => r
    | some items =>
      r.set "features"
        (Val.list (((items.filter (fun (f : RFeature) => f.hasH4 = false)).map
          (fun (f : RFeature) => strTrim f.text)).filter (fun t => t ≠ "")))
  let r := r.set "agent_name" (Val.s ((doc.agentNameText.map strTrim).getD ""))
  let r := r.set "agent_phone" (Val.s ((doc.agentPhoneText.map strTrim).getD ""))
  r.set "agent_email" (Val.s ((doc.agentEmailText.map strTrim).getD ""))

/-- `rpemx_scraper.scrape_listing`, as a pure function of the document
(plus the source URL and the `datetime.now()` timestamp).  `none`
models the extraction raising. -/
def scrape_listing (url now : String) (doc : RDoc) : Option Rec :=
  match detailsFold (doc.detailTexts.getD []) (baseRec url now doc) with
  | none => none
  | some r => some (tailBlock doc (owlBlock doc r))

end Rpemx

/-! ## bayside extractor (`bayside_scraper.py`, `scrape_listing`) -/

/-- Group 1 of `re.search(r'ID\s*:\s*(\d+)', s)` (the bayside listing
id): the digit run after `ID`, optional whitespace, and a colon.  On a
failed attempt the scan advances one position, as the regex engine
does. -/
def idScan : List Char → Option (List Char)
  | [] => none
  | c :: t =>
    if c = 'I' then
      match t with
      | 'D' :: r =>
        match r.dropWhile Char.isWhitespace with
        | ':' :: r2 =>
          let ds := (r2.dropWhile Char.isWhitespace).takeWhile Char.isDigit
          if ds.isEmpty then idScan t else some ds
        | _ => idScan t
      | _ => idScan t
    else idScan t

/-- A `.listing_detail` with a `strong` label, as read by the bayside
address and details loops.  `strongText = none` models a detail whose
`find('strong')` returns `None` (the loop then raises). -/
structure BDetail where
  strongText : Option String
  text : String
deriving DecidableEq, Inhabited

/-- An `img` inside the bayside carousel: its `src`, its
`data-lazy-load-src`, and its `alt`. -/
structure BImg where
  src : Option String
  lazySrc : Option String
  alt : Option String
deriving DecidableEq, Inhabited

/-- The `#carousel-listing .carousel-inner` element: the `.item.active
img`, all `.item img`, and the `.item.lazy-load-item img`. -/
structure BCarousel where
  activeImg : Option BImg
  itemImgs : List BImg
  lazyImgs : List BImg
deriving DecidableEq, Inhabited

/-- `.googleMap_shortcode_class` and its coordinate attributes. -/
structure BMap where
  lat : Option String
  lng : Option String
  zoom : Option String
deriving DecidableEq, Inhabited

/-- The parts of a listing page that `bayside_scraper.scrape_listing`
inspects. -/
structure BDoc where
  /-- `h1.property-title` text. -/
  titleText : Option String
  /-- `span[style="font-size: 18pt;"]` text (the listing-id line). -/
  listingIdText : Option String
  /-- the styled price `h1` text. -/
  priceText : Option String
  /-- the property type/status `span` text. -/
  typeStatusText : Option String
  /-- `[id^="accordion_prop_addr"] .panel-body .listing_detail`. -/
  addressDetails : List BDetail
  /-- `[id^="accordion_prop_details"] .panel-body .listing_detail`. -/
  propDetails : List BDetail
  /-- `[id^="collapseDesc"] .panel-body` text. -/
  descText : Option String
  /-- texts of `div.feature_block_others` entries, when the block exists. -/
  featureItemTexts : Option (List String)
  /-- `.agent_details h3 a` text. -/
  agentNameText : Option String
  /-- `.agent_detail.agent_phone_class a` text. -/
  agentPhoneText : Option String
  /-- `.agent_detail.agent_email_class a` text. -/
  agentEmailText : Option String
  /-- `.agentpict` `style` attribute. -/
  agentPhotoStyle : Option String
  /-- `.agent_position` text. -/
  agentBioText : Option String
  /-- the listing carousel, when present. -/
  carousel : Option BCarousel
  /-- `iframe[src*="virtualtour"]` source (the selector implies `src`). -/
  virtualTourSrc : Option String
  /-- the map element, when present. -/
  mapData : Option BMap
  /-- `.cf-7-hidden-fields input[type="hidden"]` name/value attributes. -/
  hiddenFields : List (Option String × Option String)
deriving DecidableEq, Inhabited

namespace Bayside

/-- The fixed amenity-flag vocabulary (`feature_flags`). -/
def feature_flags : List String :=
  ["appliances", "beach_access", "close_to_airport", "close_to_beach",
   "electricity", "furnished", "gated_community", "high_rental_revenue",
   "investment_opportunity", "storage_area", "sun_deck", "swimming_pool",
   "terrace", "unique_location", "water"]

/-- The fixed required-field set (`required_fields`). -/
def required_fields : List String :=
  ["property_id", "title", "status", "price", "currency", "description",
   "area", "city", "state", "country", "interior_space", "land_size",
   "bedrooms", "bathrooms", "parking_spaces", "agent_name", "agent_phone",
   "agent_email", "latitude", "longitude"]

/-- The location-details loop: write `city`/`area`/`state`/`country`/
`zip` keyed on the lower-cased `strong` label.  `none` models the
`AttributeError` raised when a detail has no `strong`. -/
def addressFold : List BDetail → Rec → Option Rec
  | [], r => some r
  | d :: rest, r =>
    match d.strongText with
    | none => none
    | some st =>
      let key := strToLower (rstripColon (strTrim st))
      let value := strTrim (strRemoveAll d.text st)
      let r :=
        if key = "city" then r.set "city" (Val.s value)
        else if key = "area" then r.set "area" (Val.s value)
        else if key = "state/county" then r.set "state" (Val.s value)
        else if key = "country" then r.set "country" (Val.s value)
        else if key = "zip" then r.set "zip" (Val.s value)
        else r
      addressFold rest r

/-- `key.replace(' ', '_')`. -/
def underscoreKey (k : String) : String :=
  String.mk (k.data.map (fun c => if c = ' ' then '_' else c))

/-- The physical-characteristics loop: numeric extraction by the
"first numeric run" policy and keyed writes.  `none` models a missing
`strong`. -/
def detailsFold : List BDetail → Rec → Option Rec
  | [], r => some r
  | d :: rest, r =>
    match d.strongText with
    | none => none
    | some st =>
      let key := strToLower (rstripColon (strTrim st))
      let value := strTrim (strRemoveAll d.text st)
      let numv : Option String :=
        (firstRun (fun c => c.isDigit || c = ',' || c = '.') value).map
          (fun s => strRemoveAll s ",")
      let r :=
        if key = "bedrooms" then r.set "bedrooms" (optValS numv)
        else if key = "bathrooms" then
          let r := r.set "bathrooms" (optValS numv)
          if strContains value ".5" then r.set "half_baths" (Val.s "1") else r
        else if key = "property size" then
          r.set "interior_space" (Val.s (strTrim (strRemoveAll (strRemoveAll value "ft2") ",")))
        else if key = "land size" then
          r.set "land_size" (Val.s (strTrim (strRemoveAll (strRemoveAll value "ft2") ",")))
        else if key = "parking spot number" then
          r.set "parking_spaces" (optValS numv)
        else if key ∈ ["living rooms", "kitchens", "storage rooms", "terraces"] then
          r.set (underscoreKey key)
            (if value ≠ "" then
              Val.s (match numv with
                     | some v => if v = "" then "1" else v
                     | none => "1")
            else Val.s "0")
        else r
      detailsFold rest r

/-- `data[feature] = False` for every amenity flag. -/
def featureInit (r : Rec) : Rec :=
  feature_flags.foldl (fun r f => r.set f (Val.b false)) r

/-- The features block: set a flag to `True` when its
underscore-to-space phrase occurs in any lower-cased feature text, and
store the raw features list. -/
def featureBlock (doc : BDoc) (r : Rec) : Rec :=
  match doc.featureItemTexts with
  | none => r
  | some items =>
    let kept := (items.map strTrim).filter (fun t => t ≠ "")
    let features_text := kept.map strToLower
    let r := feature_flags.foldl (fun r f =>
        if features_text.any (fun ftxt =>
            strContains ftxt (String.mk (f.data.map (fun c => if c = '_' then ' ' else c))))
        then r.set f (Val.b true) else r) r
    r.set "features_list" (Val.list kept)

/-- `all_images` as collected from the carousel: every truthy eager
`src` in order (appended unconditionally), then each truthy
`data-lazy-load-src` not already collected. -/
def all_images_of (c : BCarousel) : List String :=
  let eager := c.itemImgs.foldl (fun acc i =>
      match i.src with
      | some u => if u ≠ "" then acc ++ [u] else acc
      | none => acc) []
  c.lazyImgs.foldl (fun acc i =>
      match i.lazySrc with
      | some u => if u ≠ "" ∧ u ∉ acc then acc ++ [u] else acc
      | none => acc) eager

/-- The media block.  `none` models the `KeyError` of
`main_image_elem['src']` when the active item's `img` has no `src`. -/
def carouselBlock (doc : BDoc) (r : Rec) : Option Rec :=
  match doc.carousel with
  | none => some r
  | some c =>
    let mainImg : Option Val := match c.activeImg with
      | some img =>
        match img.src with
        | some u => some (Val.s u)
        | none => none
      | none => some (Val.s "")
    match mainImg with
    | none => none
    | some mv =>
      let r := r.set "main_image" mv
      let r := r.set "all_images" (Val.list (all_images_of c))
      some (r.set "image_captions" (Val.list (c.itemImgs.map (fun i => i.alt.getD ""))))

/-- The contact-form hidden-fields loop (`form_`-prefixed keys). -/
def hiddenFold : List (Option String × Option String) → Rec → Rec
  | [], r => r
  | (n, v) :: rest, r =>
    hiddenFold rest (r.set ("form_" ++ strToLower (n.getD "")) (Val.s (v.getD "")))

/-- The final required-field loop: back-fill every still-absent
required key with the empty string. -/
def backfill (fs : List String) (r : Rec) : Rec :=
  fs.foldl (fun r f => if (r.get f).isSome then r else r.set f (Val.s "")) r

/-- The record fields written before the address loop: `url`,
`scrape_date`, `title`, `property_id`, price/currency, type/status. -/
def preAddress (url now : String) (doc : BDoc) : Rec :=
  let r : Rec := [("url", Val.s url), ("scrape_date", Val.s now)]
  let r := r.set "title" (Val.s ((doc.titleText.map strTrim).getD ""))
  let r := match doc.listingIdText with
    | some idt => r.set "property_id" (Val.s (((idScan (strTrim idt).data).map String.mk).getD ""))
    | none => r
  let r := match doc.priceText with
    | some pt =>
      let ptext := strTrim pt
      match priceScan ptext.data with
      | some g =>
        (r.set "price" (Val.s (strRemoveAll (String.mk g) ","))).set "currency"
          (Val.s (if strContains ptext "$" then "USD" else "MXN"))
      | none => r
    | none => r
  match doc.typeStatusText with
  | some ts =>
    let parts := splitWs (strTrim ts)
    (r.set "property_type" (Val.s (parts.headD ""))).set "status"
      (Val.s (if parts.length > 1 then joinWith " " parts.tail else ""))
  | none => r

/-- The fields written between the details loop and the media block:
description, amenity flags, agent data. -/
def midBlock (doc : BDoc) (r : Rec) : Rec :=
  let r := r.set "description" (Val.s (doc.descText.getD ""))
  let r := featureBlock doc (featureInit r)
  let r := r.set "agent_name" (Val.s ((doc.agentNameText.map strTrim).getD ""))
  let r := r.set "agent_phone" (Val.s ((doc.agentPhoneText.map strTrim).getD ""))
  let r := r.set "agent_email" (Val.s ((doc.agentEmailText.map strTrim).getD ""))
  let r := match doc.agentPhotoStyle with
    | some st =>
      let r := r.set "agent_photo" (Val.s st)
      match styleUrlGroup st with
      | some u => r.set "agent_photo" (Val.s u)
      | none => r
    | none => r
  r.set "agent_bio" (Val.s ((doc.agentBioText.map strTrim).getD ""))

/-- The fields written after the media block: virtual tour, map
coordinates, hidden form fields. -/
def postCarousel (doc : BDoc) (r : Rec) : Rec :=
  let r := r.set "virtual_tour_url" (Val.s (doc.virtualTourSrc.getD ""))
  let r := match doc.mapData with
    | some m =>
      ((r.set "latitude" (Val.s (m.lat.getD ""))).set "longitude"
        (Val.s (m.lng.getD ""))).set "map_zoom" (Val.s (m.zoom.getD ""))
    | none => r
  hiddenFold doc.hiddenFields r

/-- `bayside_scraper.scrape_listing`, as a pure function of the
document (plus the source URL and the `datetime.now()` timestamp).
`none` models the extraction raising. -/
def scrape_listing (url now : String) (doc : BDoc) : Option Rec :=
  match addressFold doc.addressDetails (preAddress url now doc) with
  | none => none
  | some r1 =>
    match detailsFold doc.propDetails r1 with
    | none => none
    | some r2 =>
      match carouselBlock doc (midBlock doc r2) with
      | none => none
      | some r3 => some (backfill required_fields (postCarousel doc r3))

end Bayside

/-! ## Stores (`save_to_database` in both scrapers)

A stored row keeps its SQL matching key and the derived flag
(`isnew` / `processed`) as structure fields and the remaining column
values as a column-name/value list; `none` is SQL `NULL`. -/

/-- A Python value as seen by SQL: `None` becomes `NULL`. -/
def sqlVal : Option Val → Option Val
  | some Val.null => none
  | v => v

/-- SQL `=` against a query parameter: any comparison involving `NULL`
is not true. -/
def sqlEq (a b : Option Val) : Bool :=
  match sqlVal a, sqlVal b with
  | some x, some y => x = y
  | _, _ => false

/-- `float(data.get('price', 0)) if data.get('price') else 0`. -/
def floatOrZero (v : Option Val) : Val :=
  match v with
  | some (Val.s p) => if p = "" then Val.n 0 else Val.dec p
  | _ => Val.n 0

namespace Bayside

/-- A row of `property_listings`. -/
structure BRow where
  property_id : Option Val
  isnew : Bool
  payload : List (String × Option Val)
deriving DecidableEq, Inhabited

/-- The columns of the bayside `CREATE TABLE property_listings`. -/
def bayside_table_columns : List String :=
  ["id", "property_id", "title", "status", "isnew", "price", "main_image",
   "all_images", "currency", "description", "area", "city", "state",
   "country", "interior_space", "land_size", "bedrooms", "bathrooms",
   "parking_spaces", "agent_name", "agent_phone", "agent_email",
   "latitude", "longitude", "url", "scrape_date"]

/-- The column list of the bayside `INSERT INTO property_listings`. -/
def bayside_insert_columns : List String :=
  ["property_id", "title", "status", "price", "currency", "description",
   "area", "city", "state", "country", "interior_space", "land_size",
   "bedrooms", "bathrooms", "parking_spaces", "agent_name", "agent_phone",
   "agent_email", "latitude", "longitude", "url", "scrape_date", "isnew",
   "main_image", "all_images"]

/-- The `SET` column list of the bayside `UPDATE property_listings`
(note: neither `isnew` nor `property_id` appears). -/
def bayside_update_set_columns : List String :=
  ["title", "status", "price", "currency", "description", "area", "city",
   "state", "country", "interior_space", "land_size", "bedrooms",
   "bathrooms", "parking_spaces", "agent_name", "agent_phone",
   "agent_email", "latitude", "longitude", "url", "scrape_date",
   "main_image", "all_images"]

/-- The column values that the bayside INSERT and UPDDATE both write
(every Listing field other than the `property_id` key and `isnew`). -/
def bayside_payload (d : Rec) : List (String × Option Val) :=
  [("title", d.get "title"), ("status", d.get "status"),
   ("price", some (floatOrZero (d.get "price"))),
   ("currency", d.get "currency"), ("description", d.get "description"),
   ("area", d.get "area"), ("city", d.get "city"), ("state", d.get "state"),
   ("country", d.get "country"), ("interior_space", d.get "interior_space"),
   ("land_size", d.get "land_size"), ("bedrooms", d.get "bedrooms"),
   ("bathrooms", d.get "bathrooms"),
   ("parking_spaces", d.get "parking_spaces"),
   ("agent_name", d.get "agent_name"), ("agent_phone", d.get "agent_phone"),
   ("agent_email", d.get "agent_email"), ("latitude", d.get "latitude"),
   ("longitude", d.get "longitude"), ("url", d.get "url"),
   ("scrape_date", d.get "scrape_date"),
   ("main_image", d.get "main_image"),
   ("all_images", some (Val.s (joinWith "," (d.getListD "all_images"))))]

/-- One iteration of the bayside per-listing loop: `SELECT` by
`property_id`; when a row exists, `UPDATE` every matching row without
touching `isnew`; otherwise `INSERT` with `isnew = TRUE`. -/
def bayside_upsert_one (db : List BRow) (d : Rec) : List BRow :=
  if db.any (fun r => sqlEq r.property_id (d.get "property_id")) then
    db.map (fun r =>
      if sqlEq r.property_id (d.get "property_id") then
        { r with payload := bayside_payload d }
      else r)
  else
    db ++ [{ property_id := d.get "property_id", isnew := true,
             payload := bayside_payload d }]

/-- `bayside_scraper.save_to_database`: no-op on an empty batch, else
the per-listing upsert loop over the batch. -/
def save_to_database (db : List BRow) (ds : List Rec) : List BRow :=
  if ds = [] then db else ds.foldl bayside_upsert_one db

end Bayside

namespace Rpemx

/-- A row of `rpemx_property_listings`. -/
structure RRow where
  url : Option Val
  processed : Bool
  payload : List (String × Option Val)
deriving DecidableEq, Inhabited

/-- The column values that the rpemx INSERT and UPDATE both write
(everything other than the `url` key and `processed`). -/
def rpemx_payload (d : Rec) : List (String × Option Val) :=
  [("property_id", d.get "property_id"), ("title", d.get "title"),
   ("price", some (floatOrZero (d.get "price"))),
   ("currency", d.get "currency"), ("description", d.get "description"),
   ("area", d.get "area"), ("city", d.get "city"),
   ("size_m2", d.get "size_m2"), ("bedrooms", d.get "bedrooms"),
   ("bathrooms", d.get "bathrooms"), ("agent_name", d.get "agent_name"),
   ("agent_phone", d.get "agent_phone"), ("agent_email", d.get "agent_email"),
   ("features", some (Val.s (joinWith "\n" (d.getListD "features")))),
   ("scrape_date", d.get "scrape_date"),
   ("main_image", some (d.getStrD "main_image")),
   ("all_images", some (Val.s (joinWith "\n" (d.getListD "all_images")))),
   ("image_captions", some (Val.s (joinWith "\n" (d.getListD "image_captions")))),
   ("latitude", d.get "latitude"), ("longitude", d.get "longitude")]

/-- `rpemx_scraper.save_to_database`: no-op on an empty record;
otherwise `SELECT` by `url`, then `UPDATE ... processed=0` on every
matching row, or `INSERT ... processed=0`. -/
def save_to_database (db : List RRow) (d : Rec) : List RRow :=
  if d = [] then db
  else if db.any (fun r => sqlEq r.url (d.get "url")) then
    db.map (fun r =>
      if sqlEq r.url (d.get "url") then
        { r with processed := false, payload := rpemx_payload d }
      else r)
  else
    db ++ [{ url := d.get "url", processed := false, payload := rpemx_payload d }]

end Rpemx

/-! ## Cross-run dedup check (`rpemx_scraper.url_exists_in_database`) -/

/-- A Python exception, as far as the embedded functions distinguish
them. -/
inductive PyErr where
  | unboundLocal
  | dbError
deriving DecidableEq, Inhabited

/-- Outcome oracle for the two fallible steps of
`url_exists_in_database`: establishing the connection (with its
cursor), and running the `COUNT` query. -/
structure DedupOracle where
  connectOk : Bool
  /-- `none`: `execute`/`fetchone` raises; `some n`: the count. -/
  queryCount : Option Nat
deriving DecidableEq, Inhabited

/-- Local-variable bindings of `url_exists_in_database` at the moment
the `finally` clause runs: `none` means never assigned. -/
structure DedupLocals where
  conn : Option Unit
  cursor : Option Unit
deriving DecidableEq, Inhabited

/-- The `try` body of `url_exists_in_database`: connect, take a
cursor, run the `COUNT(*)` query, return `count > 0`. -/
def dedupBody (o : DedupOracle) : Except PyErr Bool × DedupLocals :=
  if o.connectOk = false then
    (Except.error PyErr.dbError, ⟨none, none⟩)
  else
    match o.queryCount with
    | none => (Except.error PyErr.dbError, ⟨some (), some ()⟩)
    | some cnt => (Except.ok (decide (cnt > 0)), ⟨some (), some ()⟩)

/-- `rpemx_scraper.url_exists_in_database`: the `except Exception`
clause converts any body exception into a `False` return, but the
`finally` clause then evaluates the names `cursor` and `conn`; when the
body failed before binding them, that evaluation raises
`UnboundLocalError`, which replaces the pending `False` return. -/
def url_exists_in_database (o : DedupOracle) : Except PyErr Bool :=
  let body := dedupBody o
  let handled : Except PyErr Bool :=
    match body.1 with
    | Except.error _ => Except.ok false
    | Except.ok b => Except.ok b
  match body.2.cursor with
  | none => Except.error PyErr.unboundLocal
  | some _ =>
    match body.2.conn with
    | none => Except.error PyErr.unboundLocal
    | some _ => handled

/-! ## Fetcher retry policy (`retry_strategy` in both scrapers) -/

namespace Fetcher

/-- The configured retryable statuses (`status_forcelist`). -/
def status_forcelist : List Nat := [429, 500, 502, 503, 504]

/-- The configured retry budget (`total=3`). -/
def retry_total : Nat := 3

/-- The configured backoff factor (`backoff_factor=1`). -/
def backoff_factor : Nat := 1

/-- One observed response to a GET: an HTTP status, or a
transport-level failure. -/
inductive Resp where
  | status (code : Nat)
  | transportErr
deriving DecidableEq, Inhabited

/-- Is a response retried under the configured policy? -/
def retriable (r : Resp) : Bool :=
  match r with
  | Resp.transportErr => true
  | Resp.status c => c ∈ status_forcelist

/-- Result of a session GET: a delivered status together with the
number of requests issued, or retry exhaustion. -/
inductive FetchOut where
  | ok (code : Nat) (requests : Nat)
  | exhausted (requests : Nat)
deriving DecidableEq, Inhabited

/-- Modelled from the spec: the retry loop performed by the `urllib3`
`Retry` mounted on the session via `HTTPAdapter` — the loop itself
lives in the library, outside this repository; only its configuration
(`total`, `backoff_factor`, `status_forcelist`) is repository code.
`responses i` is the outcome of the `i`-th request; a response is
retried exactly when it is a transport failure or its status is in
`status_forcelist`, and at most `retry_total` retries follow the
initial request. -/
def sessionGetAux (responses : Nat → Resp) : Nat → Nat → FetchOut
  | 0, i => FetchOut.exhausted i
  | b + 1, i =>
    match responses i with
    | Resp.transportErr => sessionGetAux responses b (i + 1)
    | Resp.status c =>
      if c ∈ status_forcelist then sessionGetAux responses b (i + 1)
      else FetchOut.ok c (i + 1)

/-- A GET through the configured session. -/
def sessionGet (responses : Nat → Resp) : FetchOut :=
  sessionGetAux responses (retry_total + 1) 0

/-- Number of requests actually issued. -/
def requestCount : FetchOut → Nat
  | FetchOut.ok _ n => n
  | FetchOut.exhausted n => n

/-- Modelled from the spec: `urllib3`'s backoff — the `k`-th retry
sleeps `backoff_factor * 2 ^ (k - 1)` seconds, except that the first
retry does not sleep. -/
def backoffTime (k : Nat) : Nat :=
  if k ≤ 1 then 0 else backoff_factor * 2 ^ (k - 1)

end Fetcher

/-! ## Crawl orchestration (`main` in both scrapers)

Both `main` loops are embedded as fuelled recursions over explicit
state, parameterised by a site model giving the data that the network
calls would return.  The state carries two traces used purely for
specification: the listing URLs passed to `scrape_listing` (with the
success of each call) and the index pages enumerated. -/

/-- Why a crawl run stopped.  `dupStop` corresponds to the bayside
`Encountered duplicate listing ... Stopping.` exit, `doneStop` to
running out of pages / an empty API page, `maxStop` to the
`MAX_LISTINGS` cap, `interrupted` to `KeyboardInterrupt`; `fuelOut` is
the artificial out-of-fuel result of the embedding. -/
inductive StopReason where
  | maxStop
  | dupStop
  | doneStop
  | interrupted
  | fuelOut
deriving DecidableEq, Inhabited

namespace Bayside

/-- `MAX_LISTINGS` as shipped (`TEST_MODE = True`); `api.py` may
overwrite this module global, so the embedded loop takes the cap as a
parameter. -/
def MAX_LISTINGS : Nat := 1

/-- Site model for the bayside crawl: the listing URLs of an index
page (`get_listing_urls`), the next-page link (`get_next_page_url`),
and the outcome of scraping one listing URL (`none` models
`scrape_listing` raising). -/
structure BSite where
  pages : String → List String
  next : String → Option String
  scrape : String → Option Rec

/-- Run state of `bayside_scraper.main`. -/
structure BState where
  /-- `base_url` (set to `None` on the duplicate stop). -/
  baseUrl : Option String
  /-- `total_listings`. -/
  total : Nat
  /-- `all_listings_data`: extracted but not yet persisted. -/
  buffer : List Rec
  /-- `scraped_urls`. -/
  scraped : List String
  /-- trace: the `scrape_listing` calls and whether each succeeded. -/
  calls : List (String × Bool)
  /-- trace: the index pages passed to `get_listing_urls`. -/
  pagesFetched : List String
  /-- a pending `KeyboardInterrupt`, due before this many more scrapes. -/
  intr : Option Nat
deriving DecidableEq, Inhabited

/-- How the per-page `for url in listing_urls` loop ended. -/
inductive InnerOut where
  | noBreak
  | dupBreak
  | maxBreak
  | interruptedBreak
deriving DecidableEq, Inhabited

/-- Processing of one eligible URL: count it, try `scrape_listing`
(emitting a call-trace entry), and on success buffer the listing and
mark the URL seen.  A failed scrape is logged and swallowed, so the
URL is neither buffered nor marked seen. -/
def scrapeStep (site : BSite) (u : String) (s : BState) : BState :=
  let s1 : BState := { s with total := s.total + 1, intr := s.intr.map (fun n => n - 1) }
  match site.scrape u with
  | some d =>
    { s1 with buffer := s1.buffer ++ [d], scraped := s1.scraped ++ [u],
              calls := s1.calls ++ [(u, true)] }
  | none => { s1 with calls := s1.calls ++ [(u, false)] }

/-- The per-page `for url in listing_urls` loop: scrape an unseen
`http` URL, break on the cap; a URL already in `scraped_urls` clears
`base_url` and breaks the whole crawl. -/
def inner (site : BSite) (maxL : Nat) : List String → BState → BState × InnerOut
  | [], s => (s, InnerOut.noBreak)
  | u :: rest, s =>
    if strStarts u "http" = true ∧ u ∉ s.scraped then
      if s.intr = some 0 then (s, InnerOut.interruptedBreak)
      else
        let s2 := scrapeStep site u s
        if maxL ≤ s2.total then (s2, InnerOut.maxBreak) else inner site maxL rest s2
    else if u ∈ s.scraped then
      ({ s with baseUrl := none }, InnerOut.dupBreak)
    else inner site maxL rest s

/-- The `while base_url and total_listings < MAX_LISTINGS` loop.  After
a page's inner loop, `base_url` advances via `get_next_page_url`; after
the duplicate break, `base_url` is `None`, no further page is
enumerated and the run ends (the source prints its distinct
`Stopping.` message there). -/
def loop (site : BSite) (maxL : Nat) : Nat → BState → BState × StopReason
  | 0, s => (s, StopReason.fuelOut)
  | f + 1, s =>
    match s.baseUrl with
    | none => (s, StopReason.doneStop)
    | some p =>
      if maxL ≤ s.total then (s, StopReason.maxStop)
      else
        let s1 : BState := { s with pagesFetched := s.pagesFetched ++ [p] }
        match inner site maxL (site.pages p) s1 with
        | (s2, InnerOut.dupBreak) => (s2, StopReason.dupStop)
        | (s2, InnerOut.interruptedBreak) => (s2, StopReason.interrupted)
        | (s2, _) =>
          let s3 : BState :=
            match s2.baseUrl with
            | some q => { s2 with baseUrl := site.next q }
            | none => s2
          loop site maxL f s3

/-- The literal start URL of `main`. -/
def start_url : String := "https://baysiderealestate.com/city/puerto-escondido/"

/-- The initial run state of `main`. -/
def initState (intr : Option Nat) : BState :=
  { baseUrl := some start_url, total := 0, buffer := [], scraped := [],
    calls := [], pagesFetched := [], intr := intr }

/-- `bayside_scraper.main`: the crawl loop inside a `try` whose
`finally` flushes the buffered listings to the store with a single
`save_to_database` call (also on `KeyboardInterrupt`). -/
def main (site : BSite) (maxL fuel : Nat) (intr : Option Nat) (db : List BRow) :
    List BRow × BState × StopReason :=
  let out := loop site maxL fuel (initState intr)
  let db' := if out.1.buffer = [] then db else save_to_database db out.1.buffer
  (db', out.1, out.2)

end Bayside

namespace Rpemx

/-- `MAX_LISTINGS` as shipped (`TEST_MODE = False`). -/
def MAX_LISTINGS : Nat := 500

/-- Site model for the rpemx crawl: the listing URLs of an API page
(`get_listing_urls_from_api`), the boolean outcome of the cross-run
store check (`url_exists_in_database`), and the outcome of scraping
one listing URL. -/
structure RSite where
  api : Nat → List String
  dbHas : String → Bool
  scrape : String → Option Rec

/-- Run state of `rpemx_scraper.main`.  The persistent store is part
of the state because this pipeline saves each listing immediately. -/
structure RState where
  /-- `current_page`. -/
  page : Nat
  /-- `total_listings`. -/
  total : Nat
  /-- `scraped_urls`. -/
  scraped : List String
  /-- trace: the `scrape_listing` calls and whether each succeeded. -/
  calls : List (String × Bool)
  /-- the store contents. -/
  db : List RRow
deriving DecidableEq, Inhabited

/-- How the per-page `for url in listing_urls` loop ended. -/
inductive ROut where
  | noBreak
  | maxBreak
deriving DecidableEq, Inhabited

/-- Processing of one eligible URL: count it, try `scrape_listing`,
and on success save the listing to the store immediately and mark the
URL seen. -/
def scrapeStep (site : RSite) (u : String) (s : RState) : RState :=
  let s1 : RState := { s with total := s.total + 1 }
  match site.scrape u with
  | some d =>
    { s1 with db := save_to_database s1.db d, scraped := s1.scraped ++ [u],
              calls := s1.calls ++ [(u, true)] }
  | none => { s1 with calls := s1.calls ++ [(u, false)] }

/-- The per-page loop: scrape a URL neither seen this run nor already
in the store; a seen/stored URL is skipped (no stop). -/
def inner (site : RSite) (maxL : Nat) : List String → RState → RState × ROut
  | [], s => (s, ROut.noBreak)
  | u :: rest, s =>
    if u ∉ s.scraped ∧ site.dbHas u = false then
      let s2 := scrapeStep site u s
      if maxL ≤ s2.total then (s2, ROut.maxBreak) else inner site maxL rest s2
    else inner site maxL rest s

/-- The `while total_listings < MAX_LISTINGS` loop: an empty API page
breaks with the normal "no more listings" stop; otherwise the page is
processed and `current_page` advances. -/
def loop (site : RSite) (maxL : Nat) : Nat → RState → RState × StopReason
  | 0, s => (s, StopReason.fuelOut)
  | f + 1, s =>
    if maxL ≤ s.total then (s, StopReason.maxStop)
    else
      match site.api s.page with
      | [] => (s, StopReason.doneStop)
      | u :: rest =>
        let out := inner site maxL (u :: rest) s
        loop site maxL f { out.1 with page := out.1.page + 1 }

/-- The initial run state of `main` (`current_page = 1`), over a given
initial store. -/
def initState (db : List RRow) : RState :=
  { page := 1, total := 0, scraped := [], calls := [], db := db }

/-- `rpemx_scraper.main`. -/
def main (site : RSite) (maxL fuel : Nat) (db : List RRow) : RState × StopReason :=
  loop site maxL fuel (initState db)

end Rpemx

/-! ## Specification-side definitions and concrete inputs -/

/-- The candidate image URLs of the rpemx carousel items, in document
order (before truthiness/duplicate/data-URI filtering). -/
def owlCandidates (items : List OwlItem) : List String :=
  items.filterMap Rpemx.itemRawUrl

/-- The candidates that pass the truthiness and `data:image` tests. -/
def keptCandidates (items : List OwlItem) : List String :=
  (owlCandidates items).filter
    (fun u => decide (u ≠ "" ∧ strStarts u "data:image" = false))

/-- Specification-side first-seen de-duplication: keep the first
occurrence of each element, in order. -/
def firstSeenDedup : List String → List String
  | [] => []
  | u :: t => u :: firstSeenDedup (t.filter (fun v => decide (v ≠ u)))
termination_by l => l.length
decreasing_by
  exact Nat.lt_succ_of_le (List.length_filter_le _ _)

/-- A bayside document in which every queried element is absent. -/
def emptyBDoc : BDoc := default

/-- An rpemx document in which every queried element is absent. -/
def emptyRDoc : RDoc := default

/-- A carousel `img` with only an eager `src`. -/
def eagerImg (u : String) : BImg :=
  { src := some u, lazySrc := none, alt := none }

/-- A carousel `img` carrying only a lazy-load source, as a
`.item.lazy-load-item img` typically does (no eager `src`). -/
def lazyImg (u : String) : BImg :=
  { src := none, lazySrc := some u, alt := none }

/-- A carousel with both source kinds: two eager items carrying the
same URL, and one lazy-load item (which, as in the DOM, is also among
the `.item img` elements). -/
def dupCarousel : BCarousel :=
  { activeImg := some (eagerImg "https://img/1.jpg"),
    itemImgs := [eagerImg "https://img/1.jpg", eagerImg "https://img/1.jpg",
                 lazyImg "https://img/2.jpg"],
    lazyImgs := [lazyImg "https://img/2.jpg"] }

/-- A bayside document exposing only `dupCarousel`. -/
def dupImgDoc : BDoc :=
  { emptyBDoc with carousel := some dupCarousel }

/-- A carousel with both source kinds: an eager inline data URI and a
lazy-load item. -/
def dataCarousel : BCarousel :=
  { activeImg := some (eagerImg "data:image/gif;base64,R0"),
    itemImgs := [eagerImg "data:image/gif;base64,R0", lazyImg "https://img/3.jpg"],
    lazyImgs := [lazyImg "https://img/3.jpg"] }

/-- A bayside document exposing only `dataCarousel`. -/
def dataImgDoc : BDoc :=
  { emptyBDoc with carousel := some dataCarousel }

/-- rpemx carousel items mixing lazy-load URLs, a repeated URL, a data
URI, and a style-attribute URL. -/
def mixItems : List OwlItem :=
  [{ lzlBg := some "https://site/a.jpg", style := none },
   { lzlBg := none, style := some "background-image:url(https://site/b.jpg)" },
   { lzlBg := some "https://site/a.jpg", style := none },
   { lzlBg := some "data:image/png;base64,AA", style := none }]

/-- An rpemx document with only the mixed carousel present. -/
def mixRDoc : RDoc := { emptyRDoc with owlItems := some mixItems }

/-- A concrete extracted listing for the bayside store. -/
def exBListing : Rec :=
  [("property_id", Val.s "100"), ("title", Val.s "Casa"),
   ("url", Val.s "http://bayside/100")]

/-- The row the bayside store inserts for `exBListing`. -/
def exBRow : Bayside.BRow :=
  { property_id := some (Val.s "100"), isnew := true,
    payload := Bayside.bayside_payload exBListing }

/-- A concrete extracted listing for the rpemx store. -/
def exRListing : Rec :=
  [("url", Val.s "http://rpemx/1"), ("title", Val.s "Depa")]

/-- The row the rpemx store inserts for `exRListing`. -/
def exRRow : Rpemx.RRow :=
  { url := some (Val.s "http://rpemx/1"), processed := false,
    payload := Rpemx.rpemx_payload exRListing }

/-- A bayside site whose index page repeats one listing URL and has a
further page available: exercises the duplicate stop. -/
def dupSite : Bayside.BSite :=
  { pages := fun _ => ["http://bayside/a", "http://bayside/a"],
    next := fun _ => some "https://baysiderealestate.com/page/2/",
    scrape := fun u => some [("url", Val.s u), ("property_id", Val.s u)] }

/-- A bayside site with three distinct listings on one page:
exercises the interrupt flush. -/
def flushSite : Bayside.BSite :=
  { pages := fun _ => ["http://bayside/a", "http://bayside/b", "http://bayside/c"],
    next := fun _ => none,
    scrape := fun u => some [("url", Val.s u), ("property_id", Val.s u)] }

/-- An rpemx site whose first API page is already empty. -/
def emptyPageRSite : Rpemx.RSite :=
  { api := fun _ => [], dbHas := fun _ => false, scrape := fun _ => none }

/-- An rpemx site with one page repeating a URL and one URL already in
the store. -/
def exRSite : Rpemx.RSite :=
  { api := fun n => if n = 1 then ["http://rpemx/1", "http://rpemx/1", "http://rpemx/2"] else [],
    dbHas := fun u => u = "http://rpemx/2",
    scrape := fun u => some [("url", Val.s u)] }

/-- A response stream that always answers 404. -/
def notFoundResponses : Nat → Fetcher.Resp := fun _ => Fetcher.Resp.status 404

/-- A response stream that always fails at transport level. -/
def transportFailResponses : Nat → Fetcher.Resp := fun _ => Fetcher.Resp.transportErr

/-! ## Specification-side predicates for the crawl loops -/

/-- In a trace of scrape calls, after a successful call of a URL that
URL is never called again. -/
def noRefetchB : List (String × Bool) → Bool
  | [] => true
  | (u, ok) :: t => (!ok || t.all (fun c => decide (c.1 ≠ u))) && noRefetchB t

/-- The run-local dedup invariant of the bayside crawl state: the call
trace never re-fetches a URL after a successful scrape, every
successfully scraped URL is in `scraped_urls`, and the buffer holds
exactly one listing per successful scrape. -/
def BInvariant (s : Bayside.BState) : Prop :=
  noRefetchB s.calls = true
  ∧ (∀ u, (u, true) ∈ s.calls → u ∈ s.scraped)
  ∧ s.buffer.length = (s.calls.filter (fun c => c.2)).length

/-- The run-local dedup invariant of the rpemx crawl state. -/
def RInvariant (s : Rpemx.RState) : Prop :=
  noRefetchB s.calls = true
  ∧ (∀ u, (u, true) ∈ s.calls → u ∈ s.scraped)

/-- Freshness of a batch against the bayside store: no listing
matches an existing row, and no two listings of the batch share a
`property_id` (in the SQL sense). -/
def bFresh (db : List Bayside.BRow) (ds : List Rec) : Prop :=
  (∀ d ∈ ds, ∀ r ∈ db, sqlEq r.property_id (d.get "property_id") = false)
  ∧ List.Pairwise
      (fun a b => sqlEq (a.get "property_id") (b.get "property_id") = false) ds

/-- The bayside state at the start of the first page of `dupSite`:
the initial state with that page appended to the enumeration trace. -/
def dupPageState : Bayside.BState :=
  { Bayside.initState none with
    baseUrl := some Bayside.start_url,
    pagesFetched := (Bayside.initState none).pagesFetched ++ [Bayside.start_url] }

/-! ## Record lemmas -/

theorem Rec.get_set_self (r : Rec) (k : String) (v : Val) :
    (r.set k v).get k = some v := by
  induction r with
  | nil => simp [Rec.set, Rec.get]
  | cons hd t ih =>
    obtain ⟨k', v'⟩ := hd
    by_cases h : k' = k
    · simp [Rec.set, Rec.get, h]
    · simp only [Rec.set, if_neg h, Rec.get]
      rw [if_neg (fun hq => h hq.symm)]
      exact ih

theorem Rec.get_set_of_ne (r : Rec) (k q : String) (v : Val) (h : q ≠ k) :
    (r.set k v).get q = r.get q := by
  induction r with
  | nil => simp [Rec.set, Rec.get, h]
  | cons hd t ih =>
    obtain ⟨k', v'⟩ := hd
    by_cases hk : k' = k
    · subst hk
      simp [Rec.set, Rec.get, h]
    · simp only [Rec.set, if_neg hk, Rec.get]
      by_cases hq : q = k'
      · simp [hq]
      · simp [hq, ih]

theorem Rec.isSome_get_set (r : Rec) (k q : String) (v : Val)
    (h : (r.get q).isSome) : ((r.set k v).get q).isSome := by
  by_cases hq : q = k
  · subst hq; rw [Rec.get_set_self]; rfl
  · rwa [Rec.get_set_of_ne _ _ _ _ hq]

/-! ## Back-fill lemmas (bayside required fields) -/

theorem backfill_cons (f : String) (fs : List String) (r : Rec) :
    Bayside.backfill (f :: fs) r =
      Bayside.backfill fs (if (r.get f).isSome then r else r.set f (Val.s "")) := rfl

theorem backfill_preserves_isSome (fs : List String) (r : Rec) (f : String)
    (h : (r.get f).isSome) : ((Bayside.backfill fs r).get f).isSome := by
  induction fs generalizing r with
  | nil => exact h
  | cons g t ih =>
    rw [backfill_cons]
    apply ih
    cases hg : (r.get g).isSome with
    | true => simp only [hg, if_true]; exact h
    | false =>
      simp only [hg, Bool.false_eq_true, if_false]
      exact Rec.isSome_get_set _ _ _ _ h

theorem backfill_isSome_of_mem (fs : List String) (r : Rec) (f : String)
    (h : f ∈ fs) : ((Bayside.backfill fs r).get f).isSome := by
  induction fs generalizing r with
  | nil => cases h
  | cons g t ih =>
    rw [backfill_cons]
    rcases List.mem_cons.mp h with rfl | hmem
    · apply backfill_preserves_isSome
      cases hg : (r.get f).isSome with
      | true => simp only [hg, if_true]
      | false =>
        simp only [hg, Bool.false_eq_true, if_false]
        rw [Rec.get_set_self]; rfl
    · exact ih _ hmem

/-! ## Claim C3 -/

/-- Claim C3 counterexample: the rpemx `scrape_listing` successfully
extracts a record from a parseable document that lacks a price element,
and that record omits the required key `price` entirely (no
empty-string default), so the claim fails for the rpemx extractor. -/
theorem c3_required_field_counterexample :
    "price" ∈ Bayside.required_fields
    ∧ (Rpemx.scrape_listing "http://rpemx/x" "2024-01-01 00:00:00" emptyRDoc).isSome = true
    ∧ (Rpemx.scrape_listing "http://rpemx/x" "2024-01-01 00:00:00" emptyRDoc).bind
        (fun r => r.get "price") = none
    ∧ (Rpemx.scrape_listing "http://rpemx/x" "2024-01-01 00:00:00" emptyRDoc).bind
        (fun r => r.get "property_id") = none := by
  refine ⟨by decide, rfl, rfl, rfl⟩

set_option maxHeartbeats 1000000 in
/-- Claim C3 (amended): for every parseable document, the **bayside**
`scrape_listing` returns a record containing every key of the fixed
required-field set, and each required field whose source element is
absent defaults to the empty string (shown on the all-elements-absent
document); the rpemx extractor has no such back-fill and omits
required keys (see the counterexample). -/
theorem c3_required_field_completeness :
    (∀ (url now : String) (doc : BDoc) (r : Rec),
        Bayside.scrape_listing url now doc = some r →
        ∀ f ∈ Bayside.required_fields, (r.get f).isSome)
    ∧ (∀ f ∈ Bayside.required_fields,
        (Bayside.scrape_listing "http://b/x" "2024-01-01 00:00:00" emptyBDoc).bind
          (fun r => r.get f) = some (Val.s "")) := by
  constructor
  · intro url now doc r h f hf
    unfold Bayside.scrape_listing at h
    cases ha : Bayside.addressFold doc.addressDetails (Bayside.preAddress url now doc) with
    | none => rw [ha] at h; cases h
    | some r1 =>
      rw [ha] at h
      dsimp only at h
      cases hd : Bayside.detailsFold doc.propDetails r1 with
      | none => rw [hd] at h; cases h
      | some r2 =>
        rw [hd] at h
        dsimp only at h
        cases hc : Bayside.carouselBlock doc (Bayside.midBlock doc r2) with
        | none => rw [hc] at h; cases h
        | some r3 =>
          rw [hc] at h
          dsimp only at h
          exact (Option.some.inj h) ▸ backfill_isSome_of_mem _ _ _ hf
  · decide

/-- Witness for C3: on the all-elements-absent document the bayside
extractor yields a record, and the theorem instantiated there shows
the required key `price` is present. -/
theorem c3_required_field_completeness_witness :
    ∃ v, ((Bayside.scrape_listing "http://b/x" "2024-01-01 00:00:00" emptyBDoc).getD []).get
      "price" = some v := by
  have h := c3_required_field_completeness.1 "http://b/x" "2024-01-01 00:00:00" emptyBDoc
    ((Bayside.scrape_listing "http://b/x" "2024-01-01 00:00:00" emptyBDoc).getD [])
    (by rfl) "price" (by decide)
  exact Option.isSome_iff_exists.mp h

/-! ## Claim C2 -/

theorem sqlEq_none_right (a : Option Val) : sqlEq a none = false := by
  unfold sqlEq
  cases sqlVal a <;> rfl

/-- An rpemx save leaves every row either untouched (and then the row
does not match the saved listing's `url`) or with `processed = false`. -/
theorem rpemx_save_cases (db : List Rpemx.RRow) (d : Rec) (r : Rpemx.RRow)
    (h : r ∈ Rpemx.save_to_database db d) :
    (r ∈ db ∧ sqlEq r.url (d.get "url") = false) ∨ r.processed = false := by
  unfold Rpemx.save_to_database at h
  by_cases hd : d = []
  · rw [if_pos hd] at h
    left
    refine ⟨h, ?_⟩
    rw [hd]
    exact sqlEq_none_right _
  · rw [if_neg hd] at h
    by_cases hany : db.any (fun r => sqlEq r.url (d.get "url")) = true
    · rw [if_pos hany] at h
      obtain ⟨r0, hr0, hfr⟩ := List.mem_map.mp h
      by_cases hm : sqlEq r0.url (d.get "url") = true
      · right
        rw [← hfr, if_pos hm]
      · left
        rw [← hfr, if_neg hm]
        exact ⟨hr0, Bool.not_eq_true _ ▸ hm⟩
    · rw [if_neg hany] at h
      rcases List.mem_append.mp h with hdb | hnew
      · left
        refine ⟨hdb, ?_⟩
        have := List.any_eq_false.mp (Bool.not_eq_true _ ▸ hany)
        exact Bool.not_eq_true _ ▸ (this r hdb)
      · right
        rw [List.mem_singleton.mp hnew]

/-- Claim C2 counterexample: the bayside store schema has no
`processed` column at all — neither the `CREATE TABLE` nor the
`INSERT` nor the `UPDATE ... SET` mentions it — so a bayside-persisted
row carries no `processed = false` field. -/
theorem c2_processed_counterexample :
    "processed" ∉ Bayside.bayside_table_columns
    ∧ "processed" ∉ Bayside.bayside_insert_columns
    ∧ "processed" ∉ Bayside.bayside_update_set_columns := by
  refine ⟨by decide, by decide, by decide⟩

/-- Claim C2 (amended): in the **rpemx** store every row written for a
persisted listing has `processed = false` — both the fresh insert and
every updated matching row — and no crawl-pipeline save ever sets
`processed` true (a row with `processed = true` after a save is an
unchanged row of the previous store contents); the **bayside** store
has no `processed` column at all. -/
theorem c2_processed_rearm :
    (∀ (db : List Rpemx.RRow) (d : Rec) (r : Rpemx.RRow),
        r ∈ Rpemx.save_to_database db d → r.processed = true → r ∈ db)
    ∧ (∀ (db : List Rpemx.RRow) (d : Rec) (r : Rpemx.RRow),
        r ∈ Rpemx.save_to_database db d → r ∉ db → r.processed = false)
    ∧ (∀ (db : List Rpemx.RRow) (d : Rec) (r : Rpemx.RRow),
        r ∈ Rpemx.save_to_database db d → sqlEq r.url (d.get "url") = true →
        r.processed = false)
    ∧ "processed" ∉ Bayside.bayside_table_columns := by
  refine ⟨?_, ?_, ?_, by decide⟩
  · intro db d r h hp
    rcases rpemx_save_cases db d r h with ⟨hdb, _⟩ | hfalse
    · exact hdb
    · rw [hp] at hfalse; cases hfalse
  · intro db d r h hnot
    rcases rpemx_save_cases db d r h with ⟨hdb, _⟩ | hfalse
    · exact absurd hdb hnot
    · exact hfalse
  · intro db d r h hm
    rcases rpemx_save_cases db d r h with ⟨_, hne⟩ | hfalse
    · rw [hm] at hne; cases hne
    · exact hfalse

/-- Witness for C2: saving a concrete listing into the empty rpemx
store inserts its row; the theorem instantiated there shows the
inserted row has `processed = false`. -/
theorem c2_processed_rearm_witness :
    exRRow ∈ Rpemx.save_to_database [] exRListing ∧ exRRow.processed = false := by
  refine ⟨by decide, ?_⟩
  exact c2_processed_rearm.2.1 [] exRListing exRRow (by decide) (by decide)

/-! ## Claim C1 -/

/-- When no stored row matches the listing's `property_id`, the
bayside upsert is exactly an insert with `isnew = true`. -/
theorem bayside_upsert_insert (db : List Bayside.BRow) (d : Rec)
    (h : ∀ r ∈ db, sqlEq r.property_id (d.get "property_id") = false) :
    Bayside.bayside_upsert_one db d =
      db ++ [{ property_id := d.get "property_id", isnew := true,
               payload := Bayside.bayside_payload d }] := by
  have hany : db.any (fun r => sqlEq r.property_id (d.get "property_id")) = false :=
    List.any_eq_false.mpr (fun r hr => by simp [h r hr])
  unfold Bayside.bayside_upsert_one
  simp [hany]

/-- The bayside update path never changes any row's `isnew`. -/
theorem bayside_update_isnew (db : List Bayside.BRow) (d : Rec)
    (h : db.any (fun r => sqlEq r.property_id (d.get "property_id")) = true) :
    (Bayside.bayside_upsert_one db d).map Bayside.BRow.isnew =
      db.map Bayside.BRow.isnew := by
  unfold Bayside.bayside_upsert_one
  rw [if_pos h, List.map_map]
  apply List.map_congr_left
  intro r _
  by_cases hm : sqlEq r.property_id (d.get "property_id") = true
  · rw [Function.comp_apply, if_pos hm]
  · rw [Function.comp_apply, if_neg hm]

/-- Claim C1: a bayside listing stored for the first time (no row with
its `property_id`) gets `isnew = true`; when a matching row exists,
the update leaves every row's `isnew` untouched; and upserting the
same listing twice into a store without a matching row leaves every
newly created row with `isnew = true` after both calls. -/
theorem c1_isnew_lifecycle :
    (∀ (db : List Bayside.BRow) (d : Rec),
        (∀ r ∈ db, sqlEq r.property_id (d.get "property_id") = false) →
        ∀ r ∈ Bayside.bayside_upsert_one db d, r ∉ db → r.isnew = true)
    ∧ (∀ (db : List Bayside.BRow) (d : Rec),
        db.any (fun r => sqlEq r.property_id (d.get "property_id")) = true →
        (Bayside.bayside_upsert_one db d).map Bayside.BRow.isnew =
          db.map Bayside.BRow.isnew)
    ∧ (∀ (db : List Bayside.BRow) (d : Rec),
        (∀ r ∈ db, sqlEq r.property_id (d.get "property_id") = false) →
        ∀ r ∈ Bayside.save_to_database db [d, d], r ∉ db → r.isnew = true) := by
  refine ⟨?_, fun db d h => bayside_update_isnew db d h, ?_⟩
  · intro db d h r hr hnot
    rw [bayside_upsert_insert db d h] at hr
    rcases List.mem_append.mp hr with hdb | hnew
    · exact absurd hdb hnot
    · rw [List.mem_singleton.mp hnew]
  · intro db d h r hr hnot
    have hsave : Bayside.save_to_database db [d, d] =
        Bayside.bayside_upsert_one (Bayside.bayside_upsert_one db d) d := by
      unfold Bayside.save_to_database
      rfl
    rw [hsave, bayside_upsert_insert db d h] at hr
    set newRow : Bayside.BRow :=
      { property_id := d.get "property_id", isnew := true,
        payload := Bayside.bayside_payload d } with hnewRow
    by_cases hany : (db ++ [newRow]).any
        (fun r => sqlEq r.property_id (d.get "property_id")) = true
    · unfold Bayside.bayside_upsert_one at hr
      rw [if_pos hany] at hr
      obtain ⟨r0, hr0, hfr⟩ := List.mem_map.mp hr
      rcases List.mem_append.mp hr0 with hdb | hnew
      · rw [← hfr, if_neg (by simp [h r0 hdb])] at hnot ⊢
        exact absurd hdb hnot
      · rw [List.mem_singleton.mp hnew] at hfr
        by_cases hm : sqlEq newRow.property_id (d.get "property_id") = true
        · rw [← hfr, if_pos hm]
        · rw [← hfr, if_neg hm]
    · have hall : ∀ r ∈ db ++ [newRow],
          sqlEq r.property_id (d.get "property_id") = false := by
        intro r0 hr0
        have := List.any_eq_false.mp (Bool.not_eq_true _ ▸ hany)
        exact Bool.not_eq_true _ ▸ (this r0 hr0)
      rw [bayside_upsert_insert _ d hall] at hr
      rcases List.mem_append.mp hr with hr1 | hnew2
      · rcases List.mem_append.mp hr1 with hdb | hnew
        · exact absurd hdb hnot
        · rw [List.mem_singleton.mp hnew]
      · rw [List.mem_singleton.mp hnew2]

/-- Witness for C1: upserting `exBListing` twice into the empty store
yields exactly its row, and the theorem instantiated there shows that
row still has `isnew = true` after both calls. -/
theorem c1_isnew_lifecycle_witness :
    exBRow ∈ Bayside.save_to_database [] [exBListing, exBListing]
    ∧ exBRow.isnew = true := by
  refine ⟨by decide, ?_⟩
  exact c1_isnew_lifecycle.2.2 [] exBListing (by intro r hr; cases hr) exBRow
    (by decide) (by decide)

/-! ## Claim C4 -/

theorem firstSeenDedup_nil : firstSeenDedup [] = [] := by
  rw [firstSeenDedup]

theorem firstSeenDedup_cons (u : String) (t : List String) :
    firstSeenDedup (u :: t) =
      u :: firstSeenDedup (t.filter (fun v => decide (v ≠ u))) := by
  rw [firstSeenDedup]

theorem mem_firstSeenDedup_bounded :
    ∀ (n : Nat) (l : List String), l.length ≤ n →
      ∀ u ∈ firstSeenDedup l, u ∈ l := by
  intro n
  induction n with
  | zero =>
    intro l hl u hu
    rw [List.length_eq_zero.mp (Nat.le_zero.mp hl)] at hu ⊢
    rw [firstSeenDedup_nil] at hu
    exact hu
  | succ n ih =>
    intro l hl u hu
    cases l with
    | nil => rw [firstSeenDedup_nil] at hu; cases hu
    | cons a t =>
      rw [firstSeenDedup_cons] at hu
      rcases List.mem_cons.mp hu with rfl | hu'
      · exact List.mem_cons_self _ _
      · have hlen : (t.filter (fun v => decide (v ≠ a))).length ≤ n :=
          le_trans (List.length_filter_le _ _) (Nat.lt_succ_iff.mp hl)
        have := ih _ hlen u hu'
        exact List.mem_cons_of_mem _ (List.mem_of_mem_filter this)

theorem mem_of_mem_firstSeenDedup (l : List String) (u : String)
    (h : u ∈ firstSeenDedup l) : u ∈ l :=
  mem_firstSeenDedup_bounded l.length l le_rfl u h

theorem firstSeenDedup_nodup_bounded :
    ∀ (n : Nat) (l : List String), l.length ≤ n → (firstSeenDedup l).Nodup := by
  intro n
  induction n with
  | zero =>
    intro l hl
    rw [List.length_eq_zero.mp (Nat.le_zero.mp hl), firstSeenDedup_nil]
    exact List.nodup_nil
  | succ n ih =>
    intro l hl
    cases l with
    | nil => rw [firstSeenDedup_nil]; exact List.nodup_nil
    | cons a t =>
      rw [firstSeenDedup_cons]
      have hlen : (t.filter (fun v => decide (v ≠ a))).length ≤ n :=
        le_trans (List.length_filter_le _ _) (Nat.lt_succ_iff.mp hl)
      refine List.nodup_cons.mpr ⟨?_, ih _ hlen⟩
      intro hmem
      have := List.mem_filter.mp (mem_of_mem_firstSeenDedup _ _ hmem)
      exact (of_decide_eq_true this.2) rfl

theorem firstSeenDedup_nodup (l : List String) : (firstSeenDedup l).Nodup :=
  firstSeenDedup_nodup_bounded l.length l le_rfl

theorem filter_notmem_append_singleton (l acc : List String) (u : String) :
    l.filter (fun v => decide (v ∉ acc ++ [u])) =
      (l.filter (fun v => decide (v ∉ acc))).filter (fun v => decide (v ≠ u)) := by
  induction l with
  | nil => rfl
  | cons a t ih =>
    by_cases h1 : a ∈ acc <;> by_cases h2 : a = u <;>
        simp [h1, h2, ih, List.mem_append] <;>
      exact List.filter_congr (fun x _ => Bool.and_comm _ _)

/-- The rpemx image-collection loop, explained: starting from `acc` it
appends exactly the first-seen de-duplication of the kept candidate
URLs not already in `acc`. -/
theorem owlFold_eq (items : List OwlItem) : ∀ acc : List String,
    Rpemx.owlFold items acc =
      acc ++ firstSeenDedup ((keptCandidates items).filter
        (fun v => decide (v ∉ acc))) := by
  induction items with
  | nil =>
    intro acc
    simp [Rpemx.owlFold, keptCandidates, owlCandidates, firstSeenDedup_nil]
  | cons it t ih =>
    intro acc
    cases hurl : Rpemx.itemRawUrl it with
    | none =>
      have hk : keptCandidates (it :: t) = keptCandidates t := by
        simp [keptCandidates, owlCandidates, List.filterMap_cons, hurl]
      rw [hk, ← ih acc]
      simp [Rpemx.owlFold, hurl]
    | some u =>
      by_cases hp : u ≠ "" ∧ strStarts u "data:image" = false
      · have hk : keptCandidates (it :: t) = u :: keptCandidates t := by
          simp [keptCandidates, owlCandidates, List.filterMap_cons, hurl, hp]
        by_cases hmem : u ∈ acc
        · have hcond : ¬(u ≠ "" ∧ u ∉ acc ∧ strStarts u "data:image" = false) := by
            intro hc; exact hc.2.1 hmem
          rw [hk]
          have : (u :: keptCandidates t).filter (fun v => decide (v ∉ acc)) =
              (keptCandidates t).filter (fun v => decide (v ∉ acc)) := by
            simp [hmem]
          rw [this, ← ih acc]
          simp [Rpemx.owlFold, hurl, hcond]
        · have hcond : u ≠ "" ∧ u ∉ acc ∧ strStarts u "data:image" = false :=
            ⟨hp.1, hmem, hp.2⟩
          have step : Rpemx.owlFold (it :: t) acc = Rpemx.owlFold t (acc ++ [u]) := by
            simp [Rpemx.owlFold, hurl, hcond]
          rw [step, ih (acc ++ [u]), hk]
          have : (u :: keptCandidates t).filter (fun v => decide (v ∉ acc)) =
              u :: (keptCandidates t).filter (fun v => decide (v ∉ acc)) := by
            simp [hmem]
          rw [this, firstSeenDedup_cons, filter_notmem_append_singleton]
          simp
      · have hk : keptCandidates (it :: t) = keptCandidates t := by
          simp only [keptCandidates, owlCandidates, List.filterMap_cons, hurl]
          rw [List.filter_cons]
          simp [hp]
        have hcond : ¬(u ≠ "" ∧ u ∉ acc ∧ strStarts u "data:image" = false) := by
          intro hc
          exact hp ⟨hc.1, hc.2.2⟩
        rw [hk, ← ih acc]
        simp [Rpemx.owlFold, hurl, hcond]

theorem dictFromKeys_of_nodup_aux (l : List String) :
    ∀ acc, l.Nodup → (∀ v ∈ l, v ∉ acc) →
      l.foldl (fun acc u => if u ∈ acc then acc else acc ++ [u]) acc = acc ++ l := by
  induction l with
  | nil => intro acc _ _; simp
  | cons a t ih =>
    intro acc hnd hdisj
    have ha : a ∉ acc := hdisj a (List.mem_cons_self _ _)
    have hnd' := List.nodup_cons.mp hnd
    simp only [List.foldl_cons, if_neg ha]
    rw [ih (acc ++ [a]) hnd'.2]
    · simp
    · intro v hv
      simp only [List.mem_append, List.mem_singleton]
      rintro (hvacc | rfl)
      · exact hdisj v (List.mem_cons_of_mem _ hv) hvacc
      · exact hnd'.1 hv

theorem dictFromKeys_of_nodup (l : List String) (h : l.Nodup) :
    dictFromKeys l = l := by
  unfold dictFromKeys
  rw [dictFromKeys_of_nodup_aux l [] h (by intro v _ hv; cases hv)]
  simp

/-- Claim C4 counterexample: on documents containing **both** eager
and lazy-load image sources, the bayside extractor still appends every
eager `src` without de-duplicating — `dupImgDoc` (two eager copies of
one URL plus a lazy-load image) yields `all_images` with that URL
twice — and it filters no inline data URIs, which reach `all_images`
verbatim on `dataImgDoc` (an eager data URI plus a lazy-load image). -/
theorem c4_image_list_counterexample :
    (∃ i ∈ dupCarousel.itemImgs, i.src.isSome = true)
    ∧ (∃ i ∈ dupCarousel.lazyImgs, i.lazySrc.isSome = true)
    ∧ (Bayside.scrape_listing "u" "t" dupImgDoc).bind (fun r => r.get "all_images")
      = some (Val.list ["https://img/1.jpg", "https://img/1.jpg", "https://img/2.jpg"])
    ∧ ¬ (["https://img/1.jpg", "https://img/1.jpg", "https://img/2.jpg"] :
        List String).Nodup
    ∧ (∃ i ∈ dataCarousel.itemImgs, i.src.isSome = true)
    ∧ (∃ i ∈ dataCarousel.lazyImgs, i.lazySrc.isSome = true)
    ∧ (Bayside.scrape_listing "u" "t" dataImgDoc).bind (fun r => r.get "all_images")
      = some (Val.list ["data:image/gif;base64,R0", "https://img/3.jpg"]) := by
  refine ⟨by decide, by decide, rfl, by decide, by decide, by decide, rfl⟩

/-- Claim C4 (amended): in the **rpemx** extractor, `all_images` is
exactly the first-seen de-duplication of the truthy candidate URLs
that do not start with `data:image` — hence each distinct URL appears
exactly once, in first-seen order, and no `data:image` URI appears;
the **bayside** extractor de-duplicates only the lazy-load sources and
filters no data URIs (see the counterexample). -/
theorem c4_image_list_determinism :
    (∀ (doc : RDoc) (items : List OwlItem), doc.owlItems = some items →
        Rpemx.all_images doc = firstSeenDedup (keptCandidates items))
    ∧ (∀ doc : RDoc, (Rpemx.all_images doc).Nodup)
    ∧ (∀ (doc : RDoc) (u : String), u ∈ Rpemx.all_images doc →
        strStarts u "data:image" = false ∧ u ≠ "") := by
  have key : ∀ (doc : RDoc) (items : List OwlItem), doc.owlItems = some items →
      Rpemx.all_images doc = firstSeenDedup (keptCandidates items) := by
    intro doc items hdoc
    unfold Rpemx.all_images
    rw [hdoc]
    dsimp only
    have h1 : Rpemx.owlFold items [] = firstSeenDedup (keptCandidates items) := by
      rw [owlFold_eq items []]
      simp
    rw [h1]
    exact dictFromKeys_of_nodup _ (firstSeenDedup_nodup _)
  have hnodup : ∀ doc : RDoc, (Rpemx.all_images doc).Nodup := by
    intro doc
    cases hdoc : doc.owlItems with
    | none =>
      unfold Rpemx.all_images
      rw [hdoc]
      dsimp only
      exact List.nodup_nil
    | some items =>
      rw [key doc items hdoc]
      exact firstSeenDedup_nodup _
  refine ⟨key, hnodup, ?_⟩
  intro doc u hu
  cases hdoc : doc.owlItems with
  | none =>
    unfold Rpemx.all_images at hu
    rw [hdoc] at hu
    dsimp only at hu
    cases hu
  | some items =>
    rw [key doc items hdoc] at hu
    have := List.mem_filter.mp (mem_of_mem_firstSeenDedup _ _ hu)
    have hp := of_decide_eq_true this.2
    exact ⟨hp.2, hp.1⟩

/-- Witness for C4: on the mixed carousel document the theorem yields
the first-seen list, its distinctness, and the data-URI exclusion for
a concrete member. -/
theorem c4_image_list_determinism_witness :
    Rpemx.all_images mixRDoc = firstSeenDedup (keptCandidates mixItems)
    ∧ (Rpemx.all_images mixRDoc).Nodup
    ∧ strStarts "https://site/b.jpg" "data:image" = false := by
  refine ⟨c4_image_list_determinism.1 mixRDoc mixItems rfl,
    c4_image_list_determinism.2.1 mixRDoc,
    (c4_image_list_determinism.2.2 mixRDoc "https://site/b.jpg" (by decide)).1⟩

/-! ## Claim C10 -/

theorem rpemx_detailStep_preserve (text : String) (r r2 : Rec)
    (h : Rpemx.detailStep text r = some r2) (k : String)
    (h1 : k ≠ "property_id") (h2 : k ≠ "bedrooms") (h3 : k ≠ "bathrooms")
    (h4 : k ≠ "size_m2") : r2.get k = r.get k := by
  unfold Rpemx.detailStep at h
  split_ifs at h with c1 c2 c3 c4
  · cases hs : (splitOnStr text ":").get? 1 with
    | none => rw [hs] at h; cases h
    | some p =>
      rw [hs] at h
      dsimp only at h
      rw [← Option.some.inj h]
      exact Rec.get_set_of_ne _ _ _ _ h1
  · rw [← Option.some.inj h]
    exact Rec.get_set_of_ne _ _ _ _ h2
  · rw [← Option.some.inj h]
    exact Rec.get_set_of_ne _ _ _ _ h3
  · cases hs : sizeScan text.data with
    | none => rw [hs] at h; rw [← Option.some.inj h]
    | some g =>
      rw [hs] at h
      dsimp only at h
      rw [← Option.some.inj h]
      exact Rec.get_set_of_ne _ _ _ _ h4
  · rw [← Option.some.inj h]

theorem rpemx_detailsFold_preserve (ds : List String) :
    ∀ (r r2 : Rec), Rpemx.detailsFold ds r = some r2 →
      ∀ k, k ≠ "property_id" → k ≠ "bedrooms" → k ≠ "bathrooms" →
        k ≠ "size_m2" → r2.get k = r.get k := by
  induction ds with
  | nil =>
    intro r r2 h k _ _ _ _
    rw [← Option.some.inj h]
  | cons t rest ih =>
    intro r r2 h k h1 h2 h3 h4
    unfold Rpemx.detailsFold at h
    cases hs : Rpemx.detailStep (strTrim t) r with
    | none => rw [hs] at h; cases h
    | some rmid =>
      rw [hs] at h
      dsimp only at h
      rw [ih rmid r2 h k h1 h2 h3 h4]
      exact rpemx_detailStep_preserve _ _ _ hs k h1 h2 h3 h4

theorem rpemx_baseRec_get_none (url now : String) (doc : RDoc) (k : String)
    (h1 : k ≠ "url") (h2 : k ≠ "scrape_date") (h3 : k ≠ "title")
    (h4 : k ≠ "price") (h5 : k ≠ "currency") (h6 : k ≠ "city")
    (h7 : k ≠ "area") : (Rpemx.baseRec url now doc).get k = none := by
  have base : (Rec.get [("url", Val.s url), ("scrape_date", Val.s now)] k) = none := by
    simp [Rec.get, h1, h2]
  unfold Rpemx.baseRec
  cases hl : doc.locationLinks with
  | some links =>
    cases links with
    | nil =>
      dsimp only
      cases hp : doc.priceAreaText with
      | none => rw [Rec.get_set_of_ne _ _ _ _ h3]; exact base
      | some pt =>
        dsimp only
        cases hps : priceScan (strTrim pt).data with
        | none => rw [Rec.get_set_of_ne _ _ _ _ h3]; exact base
        | some g =>
          dsimp only
          rw [Rec.get_set_of_ne _ _ _ _ h5, Rec.get_set_of_ne _ _ _ _ h4,
            Rec.get_set_of_ne _ _ _ _ h3]
          exact base
    | cons c links' =>
      cases links' with
      | nil =>
        dsimp only
        cases hp : doc.priceAreaText with
        | none => rw [Rec.get_set_of_ne _ _ _ _ h3]; exact base
        | some pt =>
          dsimp only
          cases hps : priceScan (strTrim pt).data with
          | none => rw [Rec.get_set_of_ne _ _ _ _ h3]; exact base
          | some g =>
            dsimp only
            rw [Rec.get_set_of_ne _ _ _ _ h5, Rec.get_set_of_ne _ _ _ _ h4,
              Rec.get_set_of_ne _ _ _ _ h3]
            exact base
      | cons a rest =>
        dsimp only
        rw [Rec.get_set_of_ne _ _ _ _ h7, Rec.get_set_of_ne _ _ _ _ h6]
        cases hp : doc.priceAreaText with
        | none => rw [Rec.get_set_of_ne _ _ _ _ h3]; exact base
        | some pt =>
          dsimp only
          cases hps : priceScan (strTrim pt).data with
          | none => rw [Rec.get_set_of_ne _ _ _ _ h3]; exact base
          | some g =>
            dsimp only
            rw [Rec.get_set_of_ne _ _ _ _ h5, Rec.get_set_of_ne _ _ _ _ h4,
              Rec.get_set_of_ne _ _ _ _ h3]
            exact base
  | none =>
    dsimp only
    cases hp : doc.priceAreaText with
    | none => rw [Rec.get_set_of_ne _ _ _ _ h3]; exact base
    | some pt =>
      dsimp only
      cases hps : priceScan (strTrim pt).data with
      | none => rw [Rec.get_set_of_ne _ _ _ _ h3]; exact base
      | some g =>
        dsimp only
        rw [Rec.get_set_of_ne _ _ _ _ h5, Rec.get_set_of_ne _ _ _ _ h4,
          Rec.get_set_of_ne _ _ _ _ h3]
        exact base

theorem rpemx_tailBlock_preserve (doc : RDoc) (r : Rec) (k : String)
    (h1 : k ≠ "latitude") (h2 : k ≠ "longitude") (h3 : k ≠ "description")
    (h4 : k ≠ "features") (h5 : k ≠ "agent_name") (h6 : k ≠ "agent_phone")
    (h7 : k ≠ "agent_email") : (Rpemx.tailBlock doc r).get k = r.get k := by
  unfold Rpemx.tailBlock
  rw [Rec.get_set_of_ne _ _ _ _ h7, Rec.get_set_of_ne _ _ _ _ h6,
    Rec.get_set_of_ne _ _ _ _ h5]
  cases hf : doc.featureItems with
  | none =>
    dsimp only
    rw [Rec.get_set_of_ne _ _ _ _ h3]
    cases hm : doc.mapDiv with
    | none => rfl
    | some ll =>
      obtain ⟨la, lo⟩ := ll
      dsimp only
      rw [Rec.get_set_of_ne _ _ _ _ h2, Rec.get_set_of_ne _ _ _ _ h1]
  | some items =>
    dsimp only
    rw [Rec.get_set_of_ne _ _ _ _ h4, Rec.get_set_of_ne _ _ _ _ h3]
    cases hm : doc.mapDiv with
    | none => rfl
    | some ll =>
      obtain ⟨la, lo⟩ := ll
      dsimp only
      rw [Rec.get_set_of_ne _ _ _ _ h2, Rec.get_set_of_ne _ _ _ _ h1]

theorem rpemx_owlBlock_of_images (doc : RDoc) (r : Rec) (h : String)
    (t : List String) (him : Rpemx.all_images doc = h :: t) :
    Rpemx.owlBlock doc r = ((r.set "main_image" (Val.s h)).set "all_images"
      (Val.list (h :: t))).set "image_captions" (Val.list []) := by
  unfold Rpemx.all_images at him
  unfold Rpemx.owlBlock
  cases hdoc : doc.owlItems with
  | none => rw [hdoc] at him; cases him
  | some items =>
    rw [hdoc] at him
    dsimp only at him ⊢
    rw [him]

theorem rpemx_owlBlock_of_no_images (doc : RDoc) (r : Rec)
    (him : Rpemx.all_images doc = []) : Rpemx.owlBlock doc r = r := by
  unfold Rpemx.all_images at him
  unfold Rpemx.owlBlock
  cases hdoc : doc.owlItems with
  | none => rfl
  | some items =>
    rw [hdoc] at him
    dsimp only at him ⊢
    rw [him]

/-- Claim C10: for every document the rpemx extractor processes
successfully, when at least one image URL is collected `main_image` is
the first element of `all_images` (with empty captions); when no image
is collected, the `main_image`, `all_images` and `image_captions` keys
are entirely absent from the record. -/
theorem c10_rpemx_image_fields :
    ∀ (url now : String) (doc : RDoc) (r : Rec),
      Rpemx.scrape_listing url now doc = some r →
      (∀ (h : String) (t : List String), Rpemx.all_images doc = h :: t →
        r.get "main_image" = some (Val.s h)
        ∧ r.get "all_images" = some (Val.list (h :: t))
        ∧ r.get "image_captions" = some (Val.list []))
      ∧ (Rpemx.all_images doc = [] →
        r.get "main_image" = none
        ∧ r.get "all_images" = none
        ∧ r.get "image_captions" = none) := by
  intro url now doc r hscrape
  unfold Rpemx.scrape_listing at hscrape
  cases hd : Rpemx.detailsFold (doc.detailTexts.getD []) (Rpemx.baseRec url now doc) with
  | none => rw [hd] at hscrape; cases hscrape
  | some r1 =>
    rw [hd] at hscrape
    dsimp only at hscrape
    have hr : r = Rpemx.tailBlock doc (Rpemx.owlBlock doc r1) :=
      (Option.some.inj hscrape).symm
    constructor
    · intro h t him
      rw [hr, rpemx_owlBlock_of_images doc r1 h t him]
      refine ⟨?_, ?_, ?_⟩
      · rw [rpemx_tailBlock_preserve] <;> try decide
        rw [Rec.get_set_of_ne _ _ _ _ (by decide),
          Rec.get_set_of_ne _ _ _ _ (by decide), Rec.get_set_self]
      · rw [rpemx_tailBlock_preserve] <;> try decide
        rw [Rec.get_set_of_ne _ _ _ _ (by decide), Rec.get_set_self]
      · rw [rpemx_tailBlock_preserve] <;> try decide
        rw [Rec.get_set_self]
    · intro him
      rw [hr, rpemx_owlBlock_of_no_images doc r1 him]
      refine ⟨?_, ?_, ?_⟩ <;>
        · rw [rpemx_tailBlock_preserve] <;> try decide
          rw [rpemx_detailsFold_preserve _ _ _ hd] <;> try decide
          rw [rpemx_baseRec_get_none] <;> decide

/-- Witness for C10: on the mixed-carousel document the image keys are
populated from the collected list, and on the empty document they are
absent. -/
theorem c10_rpemx_image_fields_witness :
    (((Rpemx.scrape_listing "u" "t" mixRDoc).getD []).get "main_image"
        = some (Val.s "https://site/a.jpg"))
    ∧ ((Rpemx.scrape_listing "u" "t" emptyRDoc).getD []).get "main_image" = none := by
  constructor
  · exact ((c10_rpemx_image_fields "u" "t" mixRDoc
      ((Rpemx.scrape_listing "u" "t" mixRDoc).getD []) (by rfl)).1
      "https://site/a.jpg" ["https://site/b.jpg"] (by rfl)).1
  · exact ((c10_rpemx_image_fields "u" "t" emptyRDoc
      ((Rpemx.scrape_listing "u" "t" emptyRDoc).getD []) (by rfl)).2 (by rfl)).1

/-! ## Claim C8 -/

/-- Claim C8 (code bug): the cross-run dedup check is intended to fail
open — its `except Exception` clause returns `False` — and a pure
query failure does degrade to "not seen"; but when the **connection**
fails, the `finally` clause evaluates the never-assigned local
`cursor`, raising `UnboundLocalError`, which replaces the pending
`False` return.  So a store outage at connect time makes the check
raise instead of returning "not seen", and nothing in `main` catches
it.  Evaluations: connect failure raises; query failure returns
`False`; a successful count compares with zero. -/
theorem c8_dedup_failopen_code_bug :
    url_exists_in_database ⟨false, none⟩ = Except.error PyErr.unboundLocal
    ∧ url_exists_in_database ⟨true, none⟩ = Except.ok false
    ∧ url_exists_in_database ⟨true, some 0⟩ = Except.ok false
    ∧ url_exists_in_database ⟨true, some 2⟩ = Except.ok true :=
  ⟨rfl, rfl, rfl, rfl⟩

/-! ## Claim C9 -/

theorem sessionGetAux_ok (rs : Nat → Fetcher.Resp) :
    ∀ (b i c n : Nat), Fetcher.sessionGetAux rs b i = Fetcher.FetchOut.ok c n →
      c ∉ Fetcher.status_forcelist ∧ n ≤ i + b ∧ i < n ∧
        ∀ j, i ≤ j → j + 1 < n → Fetcher.retriable (rs j) = true := by
  intro b
  induction b with
  | zero => intro i c n h; cases h
  | succ b ih =>
    intro i c n h
    unfold Fetcher.sessionGetAux at h
    cases hr : rs i with
    | transportErr =>
      rw [hr] at h
      dsimp only at h
      obtain ⟨h1, h2, h3, h4⟩ := ih (i + 1) c n h
      refine ⟨h1, by omega, by omega, ?_⟩
      intro j hij hjn
      rcases Nat.eq_or_lt_of_le hij with rfl | hlt
      · rw [hr]; rfl
      · exact h4 j hlt hjn
    | status s =>
      rw [hr] at h
      dsimp only at h
      by_cases hs : s ∈ Fetcher.status_forcelist
      · rw [if_pos hs] at h
        obtain ⟨h1, h2, h3, h4⟩ := ih (i + 1) c n h
        refine ⟨h1, by omega, by omega, ?_⟩
        intro j hij hjn
        rcases Nat.eq_or_lt_of_le hij with rfl | hlt
        · rw [Fetcher.retriable.eq_def, hr]
          exact decide_eq_true hs
        · exact h4 j hlt hjn
      · rw [if_neg hs] at h
        cases h
        exact ⟨hs, by omega, by omega, fun j hij hjn => absurd (by omega : j < i) (by omega)⟩

theorem sessionGetAux_exhausted (rs : Nat → Fetcher.Resp) :
    ∀ (b i n : Nat), Fetcher.sessionGetAux rs b i = Fetcher.FetchOut.exhausted n →
      n = i + b ∧ ∀ j, i ≤ j → j < n → Fetcher.retriable (rs j) = true := by
  intro b
  induction b with
  | zero =>
    intro i n h
    unfold Fetcher.sessionGetAux at h
    cases h
    exact ⟨rfl, fun j hij hjn => absurd hjn (by omega)⟩
  | succ b ih =>
    intro i n h
    unfold Fetcher.sessionGetAux at h
    cases hr : rs i with
    | transportErr =>
      rw [hr] at h
      dsimp only at h
      obtain ⟨h1, h2⟩ := ih (i + 1) n h
      refine ⟨by omega, ?_⟩
      intro j hij hjn
      rcases Nat.eq_or_lt_of_le hij with rfl | hlt
      · rw [hr]; rfl
      · exact h2 j hlt hjn
    | status s =>
      rw [hr] at h
      dsimp only at h
      by_cases hs : s ∈ Fetcher.status_forcelist
      · rw [if_pos hs] at h
        obtain ⟨h1, h2⟩ := ih (i + 1) n h
        refine ⟨by omega, ?_⟩
        intro j hij hjn
        rcases Nat.eq_or_lt_of_le hij with rfl | hlt
        · rw [Fetcher.retriable.eq_def, hr]
          exact decide_eq_true hs
        · exact h2 j hlt hjn
      · rw [if_neg hs] at h
        cases h

/-- Claim C9: the configured fetcher retries only responses whose
status is in `{429, 500, 502, 503, 504}` (or transport failures),
makes at most `1 + 3` requests, surfaces any other status — in
particular any other 4xx — after exactly one request without retrying,
and backs off exponentially (each retry after the second sleeps twice
the previous sleep; the sleep sequence starts `0, 2, 4`). -/
theorem c9_retry_policy :
    (∀ (rs : Nat → Fetcher.Resp) (c : Nat),
        rs 0 = Fetcher.Resp.status c → c ∉ Fetcher.status_forcelist →
        Fetcher.sessionGet rs = Fetcher.FetchOut.ok c 1)
    ∧ (∀ (rs : Nat → Fetcher.Resp) (c n : Nat),
        Fetcher.sessionGet rs = Fetcher.FetchOut.ok c n →
        c ∉ Fetcher.status_forcelist ∧ n ≤ Fetcher.retry_total + 1 ∧
          ∀ j, j + 1 < n → Fetcher.retriable (rs j) = true)
    ∧ (∀ (rs : Nat → Fetcher.Resp) (n : Nat),
        Fetcher.sessionGet rs = Fetcher.FetchOut.exhausted n →
        n = Fetcher.retry_total + 1 ∧ ∀ j, j < n → Fetcher.retriable (rs j) = true)
    ∧ (∀ rs, Fetcher.requestCount (Fetcher.sessionGet rs) ≤ Fetcher.retry_total + 1)
    ∧ (∀ k, 2 ≤ k → Fetcher.backoffTime (k + 1) = 2 * Fetcher.backoffTime k)
    ∧ [Fetcher.backoffTime 1, Fetcher.backoffTime 2, Fetcher.backoffTime 3]
        = [0, 2, 4] := by
  refine ⟨?_, ?_, ?_, ?_, ?_, by decide⟩
  · intro rs c hr hc
    unfold Fetcher.sessionGet Fetcher.sessionGetAux
    rw [hr]
    dsimp only
    rw [if_neg hc]
  · intro rs c n h
    obtain ⟨h1, h2, h3, h4⟩ := sessionGetAux_ok rs (Fetcher.retry_total + 1) 0 c n h
    exact ⟨h1, by omega, fun j hj => h4 j (Nat.zero_le _) hj⟩
  · intro rs n h
    obtain ⟨h1, h2⟩ := sessionGetAux_exhausted rs (Fetcher.retry_total + 1) 0 n h
    exact ⟨by omega, fun j hj => h2 j (Nat.zero_le _) hj⟩
  · intro rs
    cases hout : Fetcher.sessionGet rs with
    | ok c n =>
      have := (sessionGetAux_ok rs (Fetcher.retry_total + 1) 0 c n hout).2.1
      unfold Fetcher.requestCount
      dsimp only
      omega
    | exhausted n =>
      have := (sessionGetAux_exhausted rs (Fetcher.retry_total + 1) 0 n hout).1
      unfold Fetcher.requestCount
      dsimp only
      omega
  · intro k hk
    unfold Fetcher.backoffTime Fetcher.backoff_factor
    rw [if_neg (by omega), if_neg (by omega)]
    have h1 : k + 1 - 1 = (k - 1) + 1 := by omega
    rw [h1, pow_succ]
    ring

/-- Witness for C9: a plain 404 is terminal — a single request, no
retry — and the third backoff doubles the second. -/
theorem c9_retry_policy_witness :
    Fetcher.sessionGet notFoundResponses = Fetcher.FetchOut.ok 404 1
    ∧ Fetcher.backoffTime 3 = 2 * Fetcher.backoffTime 2 := by
  refine ⟨c9_retry_policy.1 notFoundResponses 404 rfl (by decide), ?_⟩
  exact c9_retry_policy.2.2.2.2.1 2 (by decide)

/-! ## Crawl-loop invariants -/

theorem noRefetchB_append (l : List (String × Bool)) (u : String) (b : Bool)
    (h : noRefetchB l = true) (hne : ∀ v ∈ l, v.2 = true → v.1 ≠ u) :
    noRefetchB (l ++ [(u, b)]) = true := by
  induction l with
  | nil => simp [noRefetchB]
  | cons hd t ih =>
    obtain ⟨w, ok⟩ := hd
    simp only [noRefetchB, List.cons_append, Bool.and_eq_true] at h ⊢
    constructor
    · cases ok with
      | false => simp
      | true =>
        have h1 := h.1
        simp only [Bool.not_true, Bool.false_or] at h1 ⊢
        refine List.all_eq_true.mpr ?_
        intro c hc
        rcases List.mem_append.mp hc with hct | hcu
        · exact List.all_eq_true.mp h1 c hct
        · rw [List.mem_singleton.mp hcu]
          exact decide_eq_true (Ne.symm (hne (w, true) (List.mem_cons_self _ _) rfl))
    · exact ih h.2 (fun v hv => hne v (List.mem_cons_of_mem _ hv))

theorem calls_extension_ne (s : List (String × Bool)) (scraped : List String)
    (u : String) (hmem : ∀ w, (w, true) ∈ s → w ∈ scraped) (hu : u ∉ scraped) :
    ∀ v ∈ s, v.2 = true → v.1 ≠ u := by
  intro v hv hvt heq
  obtain ⟨w, b⟩ := v
  dsimp only at hvt heq
  subst hvt
  subst heq
  exact hu (hmem _ hv)

theorem bayside_scrapeStep_inv (site : Bayside.BSite) (u : String)
    (s : Bayside.BState) (h : BInvariant s) (hu : u ∉ s.scraped) :
    BInvariant (Bayside.scrapeStep site u s) := by
  obtain ⟨h1, h2, h3⟩ := h
  unfold Bayside.scrapeStep
  cases hscr : site.scrape u with
  | some d =>
    dsimp only
    refine ⟨?_, ?_, ?_⟩
    · exact noRefetchB_append _ _ _ h1 (calls_extension_ne _ _ _ h2 hu)
    · intro w hw
      rcases List.mem_append.mp hw with hold | hnew
      · exact List.mem_append_left _ (h2 w hold)
      · rw [List.mem_singleton] at hnew
        rw [(Prod.mk.injEq _ _ _ _).mp hnew |>.1]
        exact List.mem_append_right _ (List.mem_singleton_self u)
    · simp [List.filter_append, h3]
  | none =>
    dsimp only
    refine ⟨?_, ?_, ?_⟩
    · exact noRefetchB_append _ _ _ h1 (calls_extension_ne _ _ _ h2 hu)
    · intro w hw
      rcases List.mem_append.mp hw with hold | hnew
      · exact h2 w hold
      · rw [List.mem_singleton] at hnew
        cases (Prod.mk.injEq _ _ _ _).mp hnew |>.2
    · simp [List.filter_append, h3]

theorem bayside_inner_inv (site : Bayside.BSite) (maxL : Nat) :
    ∀ (urls : List String) (s : Bayside.BState), BInvariant s →
      BInvariant (Bayside.inner site maxL urls s).1 := by
  intro urls
  induction urls with
  | nil => intro s h; exact h
  | cons u rest ih =>
    intro s h
    unfold Bayside.inner
    by_cases hc : strStarts u "http" = true ∧ u ∉ s.scraped
    · rw [if_pos hc]
      have hstep := bayside_scrapeStep_inv site u s h hc.2
      by_cases hi : s.intr = some 0
      · rw [if_pos hi]; exact h
      · rw [if_neg hi]
        dsimp only
        by_cases hm : maxL ≤ (Bayside.scrapeStep site u s).total
        · rw [if_pos hm]; exact hstep
        · rw [if_neg hm]; exact ih _ hstep
    · rw [if_neg hc]
      by_cases hd : u ∈ s.scraped
      · rw [if_pos hd]; exact h
      · rw [if_neg hd]; exact ih s h

theorem bayside_loop_inv (site : Bayside.BSite) (maxL : Nat) :
    ∀ (fuel : Nat) (s : Bayside.BState), BInvariant s →
      BInvariant (Bayside.loop site maxL fuel s).1 := by
  intro fuel
  induction fuel with
  | zero => intro s h; exact h
  | succ f ih =>
    intro s h
    unfold Bayside.loop
    cases hb : s.baseUrl with
    | none => exact h
    | some p =>
      dsimp only
      by_cases hm : maxL ≤ s.total
      · rw [if_pos hm]; exact h
      · rw [if_neg hm]
        have h1 : BInvariant
            { s with baseUrl := some p, pagesFetched := s.pagesFetched ++ [p] } := h
        have hinner := bayside_inner_inv site maxL (site.pages p)
          { s with baseUrl := some p, pagesFetched := s.pagesFetched ++ [p] } h1
        cases hout : Bayside.inner site maxL (site.pages p)
            { s with baseUrl := some p, pagesFetched := s.pagesFetched ++ [p] } with
        | mk s2 out =>
          rw [hout] at hinner
          cases out with
          | dupBreak => exact hinner
          | interruptedBreak => exact hinner
          | noBreak =>
            dsimp only
            cases s2.baseUrl with
            | none => exact ih s2 hinner
            | some q => exact ih _ hinner
          | maxBreak =>
            dsimp only
            cases s2.baseUrl with
            | none => exact ih s2 hinner
            | some q => exact ih _ hinner

theorem rpemx_scrapeStep_inv (site : Rpemx.RSite) (u : String)
    (s : Rpemx.RState) (h : RInvariant s) (hu : u ∉ s.scraped) :
    RInvariant (Rpemx.scrapeStep site u s) := by
  obtain ⟨h1, h2⟩ := h
  unfold Rpemx.scrapeStep
  cases hscr : site.scrape u with
  | some d =>
    dsimp only
    refine ⟨?_, ?_⟩
    · exact noRefetchB_append _ _ _ h1 (calls_extension_ne _ _ _ h2 hu)
    · intro w hw
      rcases List.mem_append.mp hw with hold | hnew
      · exact List.mem_append_left _ (h2 w hold)
      · rw [List.mem_singleton] at hnew
        rw [(Prod.mk.injEq _ _ _ _).mp hnew |>.1]
        exact List.mem_append_right _ (List.mem_singleton_self u)
  | none =>
    dsimp only
    refine ⟨?_, ?_⟩
    · exact noRefetchB_append _ _ _ h1 (calls_extension_ne _ _ _ h2 hu)
    · intro w hw
      rcases List.mem_append.mp hw with hold | hnew
      · exact h2 w hold
      · rw [List.mem_singleton] at hnew
        cases (Prod.mk.injEq _ _ _ _).mp hnew |>.2

theorem rpemx_inner_inv (site : Rpemx.RSite) (maxL : Nat) :
    ∀ (urls : List String) (s : Rpemx.RState), RInvariant s →
      RInvariant (Rpemx.inner site maxL urls s).1 := by
  intro urls
  induction urls with
  | nil => intro s h; exact h
  | cons u rest ih =>
    intro s h
    unfold Rpemx.inner
    by_cases hc : u ∉ s.scraped ∧ site.dbHas u = false
    · rw [if_pos hc]
      have hstep := rpemx_scrapeStep_inv site u s h hc.1
      dsimp only
      by_cases hm : maxL ≤ (Rpemx.scrapeStep site u s).total
      · rw [if_pos hm]; exact hstep
      · rw [if_neg hm]; exact ih _ hstep
    · rw [if_neg hc]; exact ih s h

theorem rpemx_loop_inv (site : Rpemx.RSite) (maxL : Nat) :
    ∀ (fuel : Nat) (s : Rpemx.RState), RInvariant s →
      RInvariant (Rpemx.loop site maxL fuel s).1 := by
  intro fuel
  induction fuel with
  | zero => intro s h; exact h
  | succ f ih =>
    intro s h
    unfold Rpemx.loop
    by_cases hm : maxL ≤ s.total
    · rw [if_pos hm]; exact h
    · rw [if_neg hm]
      cases hapi : site.api s.page with
      | nil => exact h
      | cons u rest =>
        dsimp only
        exact ih _ (rpemx_inner_inv site maxL (u :: rest) s h)

/-! ## Claim C7 -/

/-- Claim C7: within a single run of either crawl loop, a URL marked
seen is never fetched again — the call trace never repeats a URL after
a successful scrape of it — and every successfully scraped URL is in
the run-local seen set. -/
theorem c7_dedup_no_refetch :
    ∀ (site : Bayside.BSite) (rsite : Rpemx.RSite) (maxB maxR fb fr : Nat)
      (intr : Option Nat) (rdb : List Rpemx.RRow),
      (noRefetchB (Bayside.loop site maxB fb (Bayside.initState intr)).1.calls = true
        ∧ ∀ u, (u, true) ∈ (Bayside.loop site maxB fb (Bayside.initState intr)).1.calls →
            u ∈ (Bayside.loop site maxB fb (Bayside.initState intr)).1.scraped)
      ∧ (noRefetchB (Rpemx.loop rsite maxR fr (Rpemx.initState rdb)).1.calls = true
        ∧ ∀ u, (u, true) ∈ (Rpemx.loop rsite maxR fr (Rpemx.initState rdb)).1.calls →
            u ∈ (Rpemx.loop rsite maxR fr (Rpemx.initState rdb)).1.scraped) := by
  intro site rsite maxB maxR fb fr intr rdb
  have hb := bayside_loop_inv site maxB fb (Bayside.initState intr)
    ⟨rfl, fun u h => absurd h (List.not_mem_nil _), rfl⟩
  have hr := rpemx_loop_inv rsite maxR fr (Rpemx.initState rdb)
    ⟨rfl, fun u h => absurd h (List.not_mem_nil _)⟩
  exact ⟨⟨hb.1, hb.2.1⟩, ⟨hr.1, hr.2⟩⟩

/-- Witness for C7: on the duplicate-URL bayside site and the rpemx
site with a repeated and an already-stored URL, the theorem yields the
no-refetch property, and the concrete traces show the successful
scrapes marked seen. -/
theorem c7_dedup_no_refetch_witness :
    noRefetchB (Bayside.loop dupSite 5 3 (Bayside.initState none)).1.calls = true
    ∧ "http://bayside/a" ∈ (Bayside.loop dupSite 5 3 (Bayside.initState none)).1.scraped
    ∧ noRefetchB (Rpemx.loop exRSite 500 3 (Rpemx.initState [])).1.calls = true
    ∧ "http://rpemx/1" ∈ (Rpemx.loop exRSite 500 3 (Rpemx.initState [])).1.scraped := by
  have h := c7_dedup_no_refetch dupSite exRSite 5 500 3 3 none []
  refine ⟨h.1.1, ?_, h.2.1, ?_⟩
  · exact h.1.2 "http://bayside/a" (by decide)
  · exact h.2.2 "http://rpemx/1" (by decide)

/-! ## Claim C5 -/

theorem bayside_scrapeStep_pagesFetched (site : Bayside.BSite) (u : String)
    (s : Bayside.BState) :
    (Bayside.scrapeStep site u s).pagesFetched = s.pagesFetched := by
  unfold Bayside.scrapeStep
  cases site.scrape u <;> rfl

/-- A duplicate break of the bayside page loop leaves `base_url`
cleared, enumerates no page of its own, and was caused by some URL of
the page that is in the seen set. -/
theorem bayside_inner_dup_state (site : Bayside.BSite) (maxL : Nat) :
    ∀ (urls : List String) (s s2 : Bayside.BState),
      Bayside.inner site maxL urls s = (s2, Bayside.InnerOut.dupBreak) →
      s2.baseUrl = none ∧ s2.pagesFetched = s.pagesFetched
      ∧ ∃ u ∈ urls, u ∈ s2.scraped := by
  intro urls
  induction urls with
  | nil =>
    intro s s2 h
    unfold Bayside.inner at h
    exact Bayside.InnerOut.noConfusion (congrArg Prod.snd h)
  | cons u rest ih =>
    intro s s2 h
    unfold Bayside.inner at h
    by_cases hc : strStarts u "http" = true ∧ u ∉ s.scraped
    · rw [if_pos hc] at h
      by_cases hi : s.intr = some 0
      · rw [if_pos hi] at h
        exact Bayside.InnerOut.noConfusion (congrArg Prod.snd h)
      · rw [if_neg hi] at h
        dsimp only at h
        by_cases hm : maxL ≤ (Bayside.scrapeStep site u s).total
        · rw [if_pos hm] at h
          exact Bayside.InnerOut.noConfusion (congrArg Prod.snd h)
        · rw [if_neg hm] at h
          obtain ⟨h1, h2, u', hu', hmem⟩ := ih _ _ h
          exact ⟨h1, by rw [h2, bayside_scrapeStep_pagesFetched], u',
            List.mem_cons_of_mem _ hu', hmem⟩
    · rw [if_neg hc] at h
      by_cases hd : u ∈ s.scraped
      · rw [if_pos hd] at h
        have hs2 : s2 = { s with baseUrl := none } := (congrArg Prod.fst h).symm
        subst hs2
        exact ⟨rfl, rfl, u, List.mem_cons_self _ _, hd⟩
      · rw [if_neg hd] at h
        obtain ⟨h1, h2, u', hu', hmem⟩ := ih _ _ h
        exact ⟨h1, h2, u', List.mem_cons_of_mem _ hu', hmem⟩

/-- Claim C5: when the bayside page loop hits a URL already seen this
run, the whole crawl returns immediately with the duplicate stop — no
further page is enumerated even though a next page may exist — whereas
an rpemx API page with zero items ends the crawl with the normal
"done" stop; the two stop reasons are distinct. -/
theorem c5_stop_conditions :
    (∀ (site : Bayside.BSite) (maxL f : Nat) (s s2 : Bayside.BState) (p : String),
        s.baseUrl = some p → s.total < maxL →
        Bayside.inner site maxL (site.pages p)
            { s with baseUrl := some p, pagesFetched := s.pagesFetched ++ [p] }
          = (s2, Bayside.InnerOut.dupBreak) →
        Bayside.loop site maxL (f + 1) s = (s2, StopReason.dupStop)
        ∧ s2.baseUrl = none
        ∧ s2.pagesFetched = s.pagesFetched ++ [p]
        ∧ ∃ u ∈ site.pages p, u ∈ s2.scraped)
    ∧ (∀ (rsite : Rpemx.RSite) (maxL f : Nat) (s : Rpemx.RState),
        s.total < maxL → rsite.api s.page = [] →
        Rpemx.loop rsite maxL (f + 1) s = (s, StopReason.doneStop))
    ∧ StopReason.dupStop ≠ StopReason.doneStop := by
  refine ⟨?_, ?_, by decide⟩
  · intro site maxL f s s2 p hbase htot hinner
    obtain ⟨h1, h2, hu⟩ := bayside_inner_dup_state site maxL (site.pages p) _ _ hinner
    refine ⟨?_, h1, h2, hu⟩
    unfold Bayside.loop
    rw [hbase]
    dsimp only
    rw [if_neg (not_le.mpr htot), hinner]
  · intro rsite maxL f s htot hapi
    unfold Rpemx.loop
    rw [if_neg (not_le.mpr htot), hapi]

/-- Witness for C5: on the duplicate-URL bayside site the whole crawl
returns the duplicate stop even though a next page exists, and on the
empty-page rpemx site the crawl returns the normal done stop. -/
theorem c5_stop_conditions_witness :
    (Bayside.loop dupSite 5 3 (Bayside.initState none)).2 = StopReason.dupStop
    ∧ Rpemx.loop emptyPageRSite 500 1 (Rpemx.initState []) =
        (Rpemx.initState [], StopReason.doneStop)
    ∧ dupSite.next Bayside.start_url = some "https://baysiderealestate.com/page/2/" := by
  have h := c5_stop_conditions.1 dupSite 5 2 (Bayside.initState none)
    (Bayside.inner dupSite 5 (dupSite.pages Bayside.start_url) dupPageState).1
    Bayside.start_url rfl (by decide) (by decide)
  refine ⟨?_, c5_stop_conditions.2.1 emptyPageRSite 500 0 (Rpemx.initState [])
    (by decide) rfl, rfl⟩
  rw [h.1]

/-! ## Claim C6 -/

theorem bayside_flush_eq (db : List Bayside.BRow) (buf : List Rec) :
    (if buf = [] then db else Bayside.save_to_database db buf) =
      Bayside.save_to_database db buf := by
  by_cases hb : buf = []
  · rw [if_pos hb, hb]
    rfl
  · rw [if_neg hb]

theorem bayside_foldl_fresh_length :
    ∀ (ds : List Rec) (db : List Bayside.BRow), bFresh db ds →
      (ds.foldl Bayside.bayside_upsert_one db).length = db.length + ds.length := by
  intro ds
  induction ds with
  | nil => intro db _; simp
  | cons d t ih =>
    intro db h
    obtain ⟨h1, h2⟩ := h
    have hnomatch : ∀ r ∈ db, sqlEq r.property_id (d.get "property_id") = false :=
      h1 d (List.mem_cons_self _ _)
    have hpair := List.pairwise_cons.mp h2
    simp only [List.foldl_cons]
    rw [bayside_upsert_insert db d hnomatch]
    have hfresh' : bFresh (db ++ [Bayside.BRow.mk (d.get "property_id") true
        (Bayside.bayside_payload d)]) t := by
      constructor
      · intro d' hd' r hr
        rcases List.mem_append.mp hr with hdb | hnew
        · exact h1 d' (List.mem_cons_of_mem _ hd') r hdb
        · rw [List.mem_singleton.mp hnew]
          exact hpair.1 d' hd'
      · exact hpair.2
    rw [ih _ hfresh']
    simp only [List.length_append, List.length_cons, List.length_nil]
    omega

theorem bayside_save_fresh_length (db : List Bayside.BRow) (ds : List Rec)
    (h : bFresh db ds) :
    (Bayside.save_to_database db ds).length = db.length + ds.length := by
  cases ds with
  | nil => simp [Bayside.save_to_database]
  | cons d t =>
    unfold Bayside.save_to_database
    rw [if_neg (by simp)]
    exact bayside_foldl_fresh_length (d :: t) db h

/-- Claim C6: when a bayside run is interrupted, the listings that
were extracted but not yet persisted are all flushed: the final store
is exactly one `save_to_database` call on the buffered listings, the
buffer holds one listing per successful scrape, and for fresh distinct
listings the store grows by exactly the buffer's length. -/
theorem c6_interrupt_flush :
    ∀ (site : Bayside.BSite) (maxL fuel k : Nat) (db : List Bayside.BRow),
      (Bayside.main site maxL fuel (some k) db).2.2 = StopReason.interrupted →
      (Bayside.main site maxL fuel (some k) db).1 =
          Bayside.save_to_database db (Bayside.main site maxL fuel (some k) db).2.1.buffer
      ∧ (Bayside.main site maxL fuel (some k) db).2.1.buffer.length =
          ((Bayside.main site maxL fuel (some k) db).2.1.calls.filter
            (fun c => c.2)).length
      ∧ (bFresh db (Bayside.main site maxL fuel (some k) db).2.1.buffer →
          (Bayside.main site maxL fuel (some k) db).1.length =
            db.length + (Bayside.main site maxL fuel (some k) db).2.1.buffer.length) := by
  intro site maxL fuel k db _
  have hinv := bayside_loop_inv site maxL fuel (Bayside.initState (some k))
    ⟨rfl, fun u h => absurd h (List.not_mem_nil _), rfl⟩
  have hmain1 : (Bayside.main site maxL fuel (some k) db).1 =
      Bayside.save_to_database db (Bayside.main site maxL fuel (some k) db).2.1.buffer := by
    unfold Bayside.main
    dsimp only
    exact bayside_flush_eq db _
  refine ⟨hmain1, hinv.2.2, ?_⟩
  intro hfresh
  rw [hmain1]
  exact bayside_save_fresh_length db _ hfresh

/-- Witness for C6: interrupting the three-listing site after two
scrapes stops with `Interrupted`, leaves two buffered listings, and
the flush writes exactly those two rows. -/
theorem c6_interrupt_flush_witness :
    (Bayside.main flushSite 10 5 (some 2) []).2.2 = StopReason.interrupted
    ∧ (Bayside.main flushSite 10 5 (some 2) []).2.1.buffer.length = 2
    ∧ (Bayside.main flushSite 10 5 (some 2) []).1.length = 0 + 2 := by
  have h := c6_interrupt_flush flushSite 10 5 2 [] (by decide)
  have hfresh : bFresh [] (Bayside.main flushSite 10 5 (some 2) []).2.1.buffer := by
    constructor
    · intro d _ r hr
      exact absurd hr (List.not_mem_nil _)
    · decide
  have h3 := h.2.2 hfresh
  refine ⟨by decide, by decide, ?_⟩
  rw [h3]
  decide

end Spec2Proof
